import Mathlib

/-!
Verification development for the nvui repository (src/src/main.cpp and
src/src/editor.hpp).  Pure helper functions from main.cpp are embedded
directly; the grid synchronization engine declared in editor.hpp is
modelled from the specification, keeping the data layout (16-bit fields,
a flat `area` cell vector) declared in the header.
-/

namespace Nvui

/-! ## Command-line helpers from src/src/main.cpp -/

/-- Models `arg.rfind(pre, 0) == 0` from src/main.cpp: test that `s` starts
with `p`. -/
def strStartsWith (s p : String) : Bool := p.toList.isPrefixOf s.toList

/-- Shallow embedding of `get_arg` (src/src/main.cpp lines 27-41): scan the
argument list in order; an argument equal to `"--"` stops the scan with an
empty result; an argument starting with `pre` returns its remainder. -/
def get_arg : List String → String → Option String
  | [], _ => none
  | a :: rest, pre =>
    if a = "--" then none
    else if strStartsWith a pre then some (a.drop pre.length)
    else get_arg rest pre

/-- The longest leading run of decimal digits. -/
def takeDigits (l : List Char) : List Char := l.takeWhile (fun c => c.isDigit)

/-- Decimal value of a digit list. -/
def digitsVal (l : List Char) : Nat :=
  l.foldl (fun acc c => acc * 10 + (c.toNat - 48)) 0

/-- Drop one leading minus sign, if present. -/
def dropSign : List Char → List Char
  | '-' :: cs => cs
  | l => l

/-- Does the text start with a minus sign? -/
def isNeg : List Char → Bool
  | '-' :: _ => true
  | _ => false

/-- Models `std::from_chars` for `int` as used in src/src/main.cpp lines
99-100: parse an optional minus sign followed by the longest run of digits;
on no digits, or on a value outside the `int` range, the output variable is
left at its previous value `init`. -/
def fromCharsInt (l : List Char) (init : Int) : Int :=
  let ds := takeDigits (dropSign l)
  if ds.isEmpty then init
  else
    let v : Int := if isNeg l then -(digitsVal ds : Int) else (digitsVal ds : Int)
    if v < -(2 ^ 31) ∨ 2 ^ 31 - 1 < v then init else v

/-- Split a character list at the first `'x'`, models `geom.find('x')`
together with the two ranges `[data, data+pos)` and `[data+pos+1, end)`
used in src/src/main.cpp lines 95-100. -/
def splitAtFirstX : List Char → Option (List Char × List Char)
  | [] => none
  | c :: cs =>
    if c = 'x' then some ([], cs)
    else
      match splitAtFirstX cs with
      | none => none
      | some (b, a) => some (c :: b, a)

/-- Shallow embedding of `parse_geometry` (src/src/main.cpp lines 93-102). -/
def parse_geometry (geom : String) : Option (Int × Int) :=
  match splitAtFirstX geom.toList with
  | none => none
  | some (b, a) => some (fromCharsInt b 0, fromCharsInt a 0)

/-- Does the text begin with a number: an optional minus sign followed by at
least one digit? (`std::from_chars` modifies its output exactly in this
case.) -/
def hasIntStart (l : List Char) : Bool := !(takeDigits (dropSign l)).isEmpty

/-- The whole text is a decimal integer: used only to state claim C9 the way
the specification words it ("a valid number"). -/
def isValidIntString (l : List Char) : Bool :=
  match l with
  | [] => false
  | '-' :: ds => !ds.isEmpty && ds.all (fun c => c.isDigit)
  | ds => ds.all (fun c => c.isDigit)

/-! ### Lemmas about the main.cpp helpers -/

lemma splitAtFirstX_eq_none_iff (l : List Char) :
    splitAtFirstX l = none ↔ 'x' ∉ l := by
  induction l with
  | nil => simp [splitAtFirstX]
  | cons c cs ih =>
    by_cases hc : c = 'x'
    · subst hc
      simp [splitAtFirstX]
    · cases h : splitAtFirstX cs with
      | none =>
        rw [h] at ih
        simp [splitAtFirstX, hc, h]
        exact ⟨fun he => hc he.symm, ih.mp rfl⟩
      | some p =>
        rw [h] at ih
        have hmem : 'x' ∈ cs := by
          by_contra hx
          exact absurd (ih.mpr hx) (by simp)
        simp [splitAtFirstX, hc, h]
        exact fun _ => hmem

lemma fromCharsInt_of_no_digits (l : List Char) (h : hasIntStart l = false) :
    fromCharsInt l 0 = 0 := by
  unfold hasIntStart at h
  unfold fromCharsInt
  simp only [Bool.not_eq_false'] at h
  simp [h]

/-! ## Claim C10 -/

/-- C10: `get_arg` scans the argument list in order and stops at the first
`"--"` element: if `"--"` occurs before any argument starting with the given
option text, `get_arg` returns `none`, so arguments after the `"--"`
separator are never interpreted as option flags. -/
theorem get_arg_stops_at_ddash (l r : List String) (pre : String)
    (h : ∀ a ∈ l, strStartsWith a pre = false) :
    get_arg (l ++ "--" :: r) pre = none := by
  induction l with
  | nil => simp [get_arg]
  | cons a l' ih =>
    by_cases ha : a = "--"
    · simp [get_arg, ha]
    · have hpre : strStartsWith a pre = false := h a (by simp)
      have hrest : ∀ b ∈ l', strStartsWith b pre = false :=
        fun b hb => h b (by simp [hb])
      simp [get_arg, ha, hpre]
      exact ih hrest

/-- Witness for C10 at a concrete argument list. -/
theorem get_arg_stops_at_ddash_witness :
    get_arg (["file.txt"] ++ "--" :: ["--titlebar"]) "--titlebar" = none :=
  get_arg_stops_at_ddash ["file.txt"] ["--titlebar"] "--titlebar" (by decide)

/-! ## Claim C9 -/

/-- C9 counterexample: on input `"1ax2"` the text before the first `'x'` is
`"1a"`, which is not a valid number, yet `parse_geometry` returns width 1
(the longest digit run that `std::from_chars` consumes), not width 0. -/
theorem parse_geometry_partial_number_cex :
    isValidIntString ("1a".toList) = false ∧
    parse_geometry "1ax2" = some (1, 2) ∧
    parse_geometry "1ax2" ≠ some (0, 2) := by
  refine ⟨by decide, by decide, by decide⟩

/-- C9 (amended): `parse_geometry` returns `none` exactly when the input has
no `'x'`; when an `'x'` is present it returns the pair obtained by running
the `from_chars` model on the text before and after the first `'x'`; a
component is 0 (the initialized value) whenever that text does not begin
with a number, rather than the call failing. -/
theorem parse_geometry_spec :
    (∀ g : String, parse_geometry g = none ↔ 'x' ∉ g.toList) ∧
    (∀ (g : String) (b a : List Char), splitAtFirstX g.toList = some (b, a) →
      parse_geometry g = some (fromCharsInt b 0, fromCharsInt a 0)) ∧
    (∀ l : List Char, hasIntStart l = false → fromCharsInt l 0 = 0) := by
  refine ⟨?_, ?_, ?_⟩
  · intro g
    unfold parse_geometry
    cases h : splitAtFirstX g.toList with
    | none =>
      simp only [h]
      simpa using (splitAtFirstX_eq_none_iff _).mp h
    | some p =>
      simp only [h]
      constructor
      · intro hcontra; exact absurd hcontra (by simp)
      · intro hx
        have := (splitAtFirstX_eq_none_iff g.toList).mpr hx
        rw [this] at h
        exact absurd h (by simp)
  · intro g b a h
    unfold parse_geometry
    rw [h]
  · exact fromCharsInt_of_no_digits

/-- Witness for C9's amended theorem at concrete inputs. -/
theorem parse_geometry_spec_witness :
    parse_geometry "100" = none ∧
    parse_geometry "ax-7" = some (fromCharsInt "a".toList 0, fromCharsInt "-7".toList 0) ∧
    fromCharsInt "a".toList 0 = 0 := by
  refine ⟨(parse_geometry_spec.1 "100").mpr (by decide),
          parse_geometry_spec.2.1 "ax-7" "a".toList "-7".toList (by decide),
          parse_geometry_spec.2.2 "a".toList (by decide)⟩

/-! ## Grid synchronization engine (src/src/editor.hpp)

The header declares the data layout (`GridChar`, `Grid` with 16-bit fields
and a flat `area` vector of size rows*cols) and the event handlers
`grid_resize`, `grid_line`, `grid_cursor_goto`, `flush`, `set_text` and
`find_grid`, but their bodies are not part of the available sources; each
operation below is modelled from the specification. -/

/-- Cell record, from `struct GridChar` (src/src/editor.hpp lines 18-23):
a 16-bit highlight id (stored reduced mod 2^16), the cell text, and a
double-width flag. -/
structure GridChar where
  hl_id : Nat
  text : String
  double_width : Bool
deriving DecidableEq, Repr

/-- A blank cell with the default highlight id. -/
def blankChar : GridChar := ⟨0, " ", false⟩

/-- One grid, from `struct Grid` (src/src/editor.hpp lines 25-34): position,
16-bit dimensions and id (stored reduced mod 2^16), the flat cell buffer
`area` of size rows*cols, and a hidden flag. -/
structure Grid where
  x : Nat
  y : Nat
  rows : Nat
  cols : Nat
  id : Nat
  area : List GridChar
  hidden : Bool
deriving DecidableEq, Repr

/-- Modelled from the spec: the display-width classification of a cell text
("codepoints requiring two terminal columns"); the header stores cell text
as `QString` and the classification code is not in the available sources.
A text is wide when its base character lies in a common wide range. -/
def isWideChar (c : Char) : Bool :=
  (0x1100 ≤ c.toNat && c.toNat ≤ 0x115F) ||
  (0x2E80 ≤ c.toNat && c.toNat ≤ 0x9FFF) ||
  (0xAC00 ≤ c.toNat && c.toNat ≤ 0xD7A3) ||
  (0xF900 ≤ c.toNat && c.toNat ≤ 0xFAFF) ||
  (0xFF00 ≤ c.toNat && c.toNat ≤ 0xFF60)

/-- Display width of a cell text: decided by its base character. -/
def isWideText (s : String) : Bool :=
  match s.toList with
  | [] => false
  | c :: _ => isWideChar c

/-- Flat index of cell (row, col) in the `area` buffer. -/
def cellIdx (cols row col : Nat) : Nat := row * cols + col

/-- Clearing the pairing of a stranded left half of a double-width pair:
the glyph no longer fits its slot, so the text is blanked and the flag
dropped. -/
def clearPairLeft (p : GridChar) : GridChar := { p with text := "", double_width := false }

/-- Modelled from the spec: write one narrow cell at (row, col) (part of
`set_text`, declared at src/src/editor.hpp lines 86-94).  Per the spec's
pairing invariant, if the overwritten cell was the left half of a wide pair
the orphaned continuation to its right is reset to blank, and if it was the
continuation of a wide pair the left half's pairing is cleared. -/
def writeNarrow (a : List GridChar) (cols row col hl : Nat) (t : String) : List GridChar :=
  let i := cellIdx cols row col
  let a1 := if col ≠ 0 ∧ (a.getD (i - 1) blankChar).double_width = true then
      a.set (i - 1) (clearPairLeft (a.getD (i - 1) blankChar))
    else a
  let a2 := if (a.getD i blankChar).double_width = true ∧ col + 1 < cols then
      a1.set (i + 1) blankChar
    else a1
  a2.set i ⟨hl % 65536, t, false⟩

/-- Modelled from the spec: write one wide cell at (row, col): the cell
itself is marked double-width and the slot to its right becomes an empty
continuation; pairing of disturbed neighbours is restored as for
`writeNarrow`. -/
def writeWide (a : List GridChar) (cols row col hl : Nat) (t : String) : List GridChar :=
  let i := cellIdx cols row col
  let a1 := if col ≠ 0 ∧ (a.getD (i - 1) blankChar).double_width = true then
      a.set (i - 1) (clearPairLeft (a.getD (i - 1) blankChar))
    else a
  let a2 := if (a.getD (i + 1) blankChar).double_width = true ∧ col + 2 < cols then
      a1.set (i + 2) blankChar
    else a1
  (a2.set i ⟨hl % 65536, t, true⟩).set (i + 1) ⟨hl % 65536, "", false⟩

/-- Modelled from the spec: write `rep` consecutive copies of one cell text
starting at `col`, advancing one slot per narrow cell and two per wide cell;
the first write that would exceed `cols` stops the row with an out-of-bounds
flag, keeping the cells already written. -/
def setRun (cols row hl : Nat) (t : String) (wide : Bool) :
    List GridChar → Nat → Nat → List GridChar × Nat × Bool
  | a, col, 0 => (a, col, true)
  | a, col, rep + 1 =>
    let need := if wide = true then 2 else 1
    if col + need ≤ cols then
      setRun cols row hl t wide
        (if wide = true then writeWide a cols row col hl t else writeNarrow a cols row col hl t)
        (col + need) rep
    else (a, col, false)

/-- Modelled from the spec: `set_text` (declared at src/src/editor.hpp lines
86-94): adds `rep` copies of text `c` to grid `g` at the given row and
column, overwriting the previous text; returns the updated grid, the next
column, and whether the whole run stayed in bounds. -/
def set_text (g : Grid) (c : String) (row col hl_id rep : Nat) (is_dbl : Bool) :
    Grid × Nat × Bool :=
  ({ g with area := (setRun g.cols row hl_id c is_dbl g.area col rep).1 },
    (setRun g.cols row hl_id c is_dbl g.area col rep).2.1,
    (setRun g.cols row hl_id c is_dbl g.area col rep).2.2)

/-- One run of a `grid_line` event: text, an optional highlight id, and a
repeat count. -/
structure LineRun where
  text : String
  hl : Option Nat
  rep : Nat
deriving DecidableEq, Repr

/-- Modelled from the spec: expand the runs of one line-update, carrying the
highlight id of the preceding run when a run has none; stops at the first
out-of-bounds write, keeping prior writes. -/
def applyRuns (row : Nat) : Grid → Nat → Nat → List LineRun → Grid × Bool
  | g, _, _, [] => (g, true)
  | g, col, lastHl, r :: rs =>
    let res := set_text g r.text row col (r.hl.getD lastHl) r.rep (isWideText r.text)
    if res.2.2 = true then applyRuns row res.1 res.2.1 (r.hl.getD lastHl) rs
    else (res.1, false)

/-- Number of column slots one run expansion occupies (two per wide cell,
one per narrow cell, times the repeat count). -/
def runsWidth : List LineRun → Nat
  | [] => 0
  | r :: rs => (if isWideText r.text = true then 2 else 1) * r.rep + runsWidth rs

/-- The highlight id carried after processing a run list, starting from
`lh` (the carry-over rule of the spec). -/
def runsCarry : Nat → List LineRun → Nat
  | lh, [] => lh
  | lh, r :: rs => runsCarry (r.hl.getD lh) rs

/-- Modelled from the spec: `find_grid` (declared at src/src/editor.hpp
lines 95-98): return the first grid whose 16-bit id matches the request. -/
def find_grid : List Grid → Nat → Option Grid
  | [], _ => none
  | g :: gs, n => if g.id = n % 65536 then some g else find_grid gs n

/-- Replace the first grid whose id is `n` (already reduced mod 2^16), or
append the grid when no grid matches. -/
def updateGrids : List Grid → Nat → Grid → List Grid
  | [], _, g => [g]
  | h :: t, n, g => if h.id = n then g :: t else h :: updateGrids t n g

/-- Modelled from the spec: the reallocated buffer of a resize.  Content in
range of both the old and new dimensions is preserved top-left aligned; all
other cells are blank with the default highlight id; only indices inside
the old buffer are read. -/
def resizedArea (oldRows oldCols newCols n : Nat) (old : List GridChar) : List GridChar :=
  (List.range n).map (fun i =>
    if i / newCols < oldRows ∧ i % newCols < oldCols then
      old.getD (i / newCols * oldCols + i % newCols) blankChar
    else blankChar)

/-- Resize an existing grid to the given 16-bit dimensions. -/
def resizeGrid (g : Grid) (cols rows : Nat) : Grid :=
  { g with
    rows := rows % 65536
    cols := cols % 65536
    area := resizedArea g.rows g.cols (cols % 65536) ((rows % 65536) * (cols % 65536)) g.area }

/-- A freshly created grid: blank cells, visible, at the origin. -/
def mkBlankGrid (gid cols rows : Nat) : Grid :=
  ⟨0, 0, rows % 65536, cols % 65536, gid % 65536,
    List.replicate ((rows % 65536) * (cols % 65536)) blankChar, false⟩

/-- Engine state: the grid registry, the cursor with its validity bit as
stored at the time of the last cursor-goto, the accumulated dirty marks
(grid id, row), and the log of dirty sets handed to the render callback,
one entry per flush. -/
structure EditorState where
  grids : List Grid
  cursor : Option (Nat × Nat × Nat × Bool)
  dirty : List (Nat × Nat)
  renderLog : List (List (Nat × Nat))
deriving DecidableEq, Repr

/-- The initial engine state: no grids, no cursor, nothing dirty. -/
def initState : EditorState := ⟨[], none, [], []⟩

/-- Modelled from the spec: `grid_resize` (declared at src/src/editor.hpp
lines 45-48): create-or-reallocate the named grid and mark its rows
dirty. -/
def grid_resize (s : EditorState) (gid cols rows : Nat) : EditorState :=
  match find_grid s.grids gid with
  | some g =>
    { s with
      grids := updateGrids s.grids (gid % 65536) (resizeGrid g cols rows)
      dirty := s.dirty ++ (List.range (rows % 65536)).map (fun r => (gid % 65536, r)) }
  | none =>
    { s with
      grids := s.grids ++ [mkBlankGrid gid cols rows]
      dirty := s.dirty ++ (List.range (rows % 65536)).map (fun r => (gid % 65536, r)) }

/-- Error taxonomy of the spec relevant to the modelled operations. -/
inductive NvErr
  | OutOfBounds
  | UnknownGrid
deriving DecidableEq, Repr

/-- Modelled from the spec: `grid_line` (declared at src/src/editor.hpp
lines 49-52): look up the grid (drop the event when unknown), expand the
runs at the given row and start column, mark the row dirty, and report an
out-of-bounds write without undoing the cells already written. -/
def grid_line (s : EditorState) (gid row sc : Nat) (runs : List LineRun) :
    EditorState × Option NvErr :=
  match find_grid s.grids gid with
  | none => (s, some NvErr.UnknownGrid)
  | some g =>
    if row < g.rows then
      ({ s with
          grids := updateGrids s.grids (gid % 65536)
            (applyRuns row g sc ((g.area.getD (cellIdx g.cols row sc) blankChar).hl_id) runs).1
          dirty := s.dirty ++ [(gid % 65536, row)] },
        if (applyRuns row g sc ((g.area.getD (cellIdx g.cols row sc) blankChar).hl_id) runs).2 = true
        then none else some NvErr.OutOfBounds)
    else (s, some NvErr.OutOfBounds)

/-- Modelled from the spec: the cursor validity check, against the current
registry: the referenced grid exists, is not hidden, and the coordinates
are in bounds. -/
def cursorValid (s : EditorState) (gid row col : Nat) : Bool :=
  match find_grid s.grids gid with
  | none => false
  | some g => if g.hidden = false ∧ row < g.rows ∧ col < g.cols then true else false

/-- Modelled from the spec: `grid_cursor_goto` (declared at
src/src/editor.hpp lines 53-56): store the position verbatim together with
a validity bit computed against the current registry. -/
def grid_cursor_goto (s : EditorState) (gid row col : Nat) : EditorState :=
  { s with cursor := some (gid, row, col, cursorValid s gid row col) }

/-- Modelled from the spec: reading the cursor for rendering re-checks
validity lazily against the current registry; `none` when the grid is
missing, hidden, or the stored coordinates are out of bounds. -/
def readCursor (s : EditorState) : Option (Nat × Nat × Nat) :=
  match s.cursor with
  | none => none
  | some (gid, row, col, b) =>
    if b = true ∧ cursorValid s gid row col = true then some (gid, row, col) else none

/-- Modelled from the spec: `flush` (declared at src/src/editor.hpp lines
61-65): hand the accumulated dirty set to the render callback exactly once
and clear the accumulation. -/
def flush (s : EditorState) : EditorState :=
  { s with dirty := [], renderLog := s.renderLog ++ [s.dirty] }

/-- The typed operations produced by the update decoder. -/
inductive Op
  | resize (gid cols rows : Nat)
  | line (gid row sc : Nat) (runs : List LineRun)
  | goto (gid row col : Nat)
  | flush
deriving DecidableEq, Repr

/-- Apply one decoded operation; errors of `grid_line` are absorbed. -/
def applyOp (s : EditorState) : Op → EditorState
  | Op.resize gid cols rows => grid_resize s gid cols rows
  | Op.line gid row sc runs => (grid_line s gid row sc runs).1
  | Op.goto gid row col => grid_cursor_goto s gid row col
  | Op.flush => flush s

/-- Apply a sequence of decoded operations in arrival order. -/
def applyOps : EditorState → List Op → EditorState
  | s, [] => s
  | s, op :: rest => applyOps (applyOp s op) rest

/-- The buffer invariant of the spec: every grid's `area` has length
rows*cols. -/
def WF (s : EditorState) : Prop := ∀ g ∈ s.grids, g.area.length = g.rows * g.cols

/-- Number of flush operations in a sequence. -/
def countFlush : List Op → Nat
  | [] => 0
  | Op.flush :: rest => countFlush rest + 1
  | _ :: rest => countFlush rest

/-! ## Helper lemmas -/

lemma getD_set_self {α : Type} (a : List α) (i : Nat) (x d : α) (h : i < a.length) :
    (a.set i x).getD i d = x := by
  rw [List.getD_eq_getElem?_getD, List.getElem?_set]
  simp [h]

lemma getD_set_ne {α : Type} (a : List α) {i j : Nat} (x d : α) (h : i ≠ j) :
    (a.set i x).getD j d = a.getD j d := by
  rw [List.getD_eq_getElem?_getD, List.getElem?_set, if_neg h,
    ← List.getD_eq_getElem?_getD]

lemma row_end_le {row rows : Nat} (cols : Nat) (h : row < rows) :
    row * cols + cols ≤ rows * cols := by
  have hle := Nat.mul_le_mul_right cols (Nat.succ_le_of_lt h)
  calc row * cols + cols = (row + 1) * cols := by ring
  _ ≤ rows * cols := hle

lemma length_writeNarrow (a : List GridChar) (cols row col hl : Nat) (t : String) :
    (writeNarrow a cols row col hl t).length = a.length := by
  simp only [writeNarrow]
  split_ifs <;> simp [List.length_set]

lemma length_writeWide (a : List GridChar) (cols row col hl : Nat) (t : String) :
    (writeWide a cols row col hl t).length = a.length := by
  simp only [writeWide]
  split_ifs <;> simp [List.length_set]

lemma length_setRun (cols row hl : Nat) (t : String) (wide : Bool) :
    ∀ (rep : Nat) (a : List GridChar) (col : Nat),
      (setRun cols row hl t wide a col rep).1.length = a.length := by
  intro rep
  induction rep with
  | zero => intro a col; rfl
  | succ n ih =>
    intro a col
    cases wide <;> simp only [setRun] <;> split_ifs <;>
      simp [ih, length_writeNarrow, length_writeWide]

lemma applyRuns_proj (row : Nat) :
    ∀ (runs : List LineRun) (g : Grid) (col lastHl : Nat),
      (applyRuns row g col lastHl runs).1.rows = g.rows ∧
      (applyRuns row g col lastHl runs).1.cols = g.cols ∧
      (applyRuns row g col lastHl runs).1.id = g.id ∧
      (applyRuns row g col lastHl runs).1.hidden = g.hidden ∧
      (applyRuns row g col lastHl runs).1.area.length = g.area.length := by
  intro runs
  induction runs with
  | nil => intro g col lastHl; exact ⟨rfl, rfl, rfl, rfl, rfl⟩
  | cons r rs ih =>
    intro g col lastHl
    simp only [applyRuns]
    split_ifs with hok
    · obtain ⟨h1, h2, h3, h4, h5⟩ := ih
        (set_text g r.text row col (r.hl.getD lastHl) r.rep (isWideText r.text)).1
        (set_text g r.text row col (r.hl.getD lastHl) r.rep (isWideText r.text)).2.1
        (r.hl.getD lastHl)
      exact ⟨h1, h2, h3, h4, h5.trans (length_setRun _ _ _ _ _ _ _ _)⟩
    · exact ⟨rfl, rfl, rfl, rfl, length_setRun _ _ _ _ _ _ _ _⟩

lemma length_resizedArea (oR oC nC n : Nat) (old : List GridChar) :
    (resizedArea oR oC nC n old).length = n := by
  simp [resizedArea]

lemma mem_updateGrids :
    ∀ (gs : List Grid) (n : Nat) (g' x : Grid), x ∈ updateGrids gs n g' → x = g' ∨ x ∈ gs := by
  intro gs
  induction gs with
  | nil =>
    intro n g' x hx
    simp only [updateGrids, List.mem_singleton] at hx
    exact Or.inl hx
  | cons h t ih =>
    intro n g' x hx
    simp only [updateGrids] at hx
    split_ifs at hx with hid
    · rcases List.mem_cons.mp hx with h1 | h2
      · exact Or.inl h1
      · exact Or.inr (List.mem_cons.mpr (Or.inr h2))
    · rcases List.mem_cons.mp hx with h1 | h2
      · exact Or.inr (List.mem_cons.mpr (Or.inl h1))
      · rcases ih n g' x h2 with h3 | h4
        · exact Or.inl h3
        · exact Or.inr (List.mem_cons.mpr (Or.inr h4))

lemma find_grid_mem :
    ∀ (gs : List Grid) (n : Nat) (g : Grid), find_grid gs n = some g → g ∈ gs := by
  intro gs
  induction gs with
  | nil => intro n g h; exact absurd h (by simp [find_grid])
  | cons h t ih =>
    intro n g hf
    simp only [find_grid] at hf
    split_ifs at hf with hid
    · exact List.mem_cons.mpr (Or.inl (Option.some.inj hf).symm)
    · exact List.mem_cons.mpr (Or.inr (ih n g hf))

lemma find_grid_id :
    ∀ (gs : List Grid) (n : Nat) (g : Grid), find_grid gs n = some g → g.id = n % 65536 := by
  intro gs
  induction gs with
  | nil => intro n g h; exact absurd h (by simp [find_grid])
  | cons h t ih =>
    intro n g hf
    simp only [find_grid] at hf
    split_ifs at hf with hid
    · rw [← Option.some.inj hf]; exact hid
    · exact ih n g hf

lemma find_grid_updateGrids :
    ∀ (gs : List Grid) (n : Nat) (g g' : Grid), find_grid gs n = some g →
      g'.id = n % 65536 → find_grid (updateGrids gs (n % 65536) g') n = some g' := by
  intro gs
  induction gs with
  | nil => intro n g g' h; exact absurd h (by simp [find_grid])
  | cons h t ih =>
    intro n g g' hf hid'
    simp only [find_grid] at hf
    by_cases hid : h.id = n % 65536
    · simp [updateGrids, if_pos hid, find_grid, hid']
    · rw [if_neg hid] at hf
      simp only [updateGrids, if_neg hid, find_grid, if_neg hid]
      exact ih n g g' hf hid'

lemma find_grid_append_of_none :
    ∀ (gs : List Grid) (n : Nat) (g : Grid), find_grid gs n = none →
      g.id = n % 65536 → find_grid (gs ++ [g]) n = some g := by
  intro gs
  induction gs with
  | nil => intro n g _ hid; simp [find_grid, hid]
  | cons h t ih =>
    intro n g hf hid
    simp only [find_grid] at hf
    by_cases hcond : h.id = n % 65536
    · rw [if_pos hcond] at hf
      exact absurd hf (by simp)
    · rw [if_neg hcond] at hf
      show find_grid (h :: (t ++ [g])) n = some g
      simp only [find_grid, if_neg hcond]
      exact ih n g hf hid

lemma WN_getD_self (a : List GridChar) (cols row col hl : Nat) (t : String)
    (h : cellIdx cols row col < a.length) :
    (writeNarrow a cols row col hl t).getD (cellIdx cols row col) blankChar
      = ⟨hl % 65536, t, false⟩ := by
  simp only [writeNarrow]
  apply getD_set_self
  split_ifs <;> simpa [List.length_set] using h

lemma WN_getD_lt (a : List GridChar) (cols row col hl : Nat) (t : String)
    {j : Nat} (hj : j + 1 < cellIdx cols row col) :
    (writeNarrow a cols row col hl t).getD j blankChar = a.getD j blankChar := by
  simp only [writeNarrow]
  rw [getD_set_ne _ _ _ (by omega : cellIdx cols row col ≠ j)]
  split_ifs
  · rw [getD_set_ne _ _ _ (by omega : cellIdx cols row col + 1 ≠ j),
      getD_set_ne _ _ _ (by omega : cellIdx cols row col - 1 ≠ j)]
  · rw [getD_set_ne _ _ _ (by omega : cellIdx cols row col + 1 ≠ j)]
  · rw [getD_set_ne _ _ _ (by omega : cellIdx cols row col - 1 ≠ j)]
  · rfl

lemma WN_getD_pred_false (a : List GridChar) (cols row col hl : Nat) (t : String)
    {j : Nat} (hj : j + 1 = cellIdx cols row col)
    (hdw : (a.getD j blankChar).double_width = false) :
    (writeNarrow a cols row col hl t).getD j blankChar = a.getD j blankChar := by
  have hij : cellIdx cols row col - 1 = j := by omega
  simp only [writeNarrow]
  rw [getD_set_ne _ _ _ (by omega : cellIdx cols row col ≠ j)]
  rw [hij]
  have hC1 : ¬(col ≠ 0 ∧ (a.getD j blankChar).double_width = true) := by
    intro hc
    rw [hdw] at hc
    exact absurd hc.2 (by decide)
  rw [if_neg hC1]
  split_ifs with hC2
  · rw [getD_set_ne _ _ _ (by omega : cellIdx cols row col + 1 ≠ j)]
  · rfl

lemma WN_getD_pred_clear (a : List GridChar) (cols row col hl : Nat) (t : String)
    {j : Nat} (hcol : col ≠ 0) (hj : j + 1 = cellIdx cols row col)
    (hdw : (a.getD j blankChar).double_width = true) (hlen : j < a.length) :
    (writeNarrow a cols row col hl t).getD j blankChar
      = clearPairLeft (a.getD j blankChar) := by
  have hij : cellIdx cols row col - 1 = j := by omega
  simp only [writeNarrow]
  rw [getD_set_ne _ _ _ (by omega : cellIdx cols row col ≠ j)]
  rw [hij]
  have hC1 : col ≠ 0 ∧ (a.getD j blankChar).double_width = true := ⟨hcol, hdw⟩
  rw [if_pos hC1]
  split_ifs with hC2
  · rw [getD_set_ne _ _ _ (by omega : cellIdx cols row col + 1 ≠ j)]
    exact getD_set_self _ _ _ _ hlen
  · exact getD_set_self _ _ _ _ hlen

lemma WN_getD_succ_blank (a : List GridChar) (cols row col hl : Nat) (t : String)
    (hdw : (a.getD (cellIdx cols row col) blankChar).double_width = true)
    (hlt : col + 1 < cols) (hlen : cellIdx cols row col + 1 < a.length) :
    (writeNarrow a cols row col hl t).getD (cellIdx cols row col + 1) blankChar
      = blankChar := by
  simp only [writeNarrow]
  rw [getD_set_ne _ _ _ (by omega : cellIdx cols row col ≠ cellIdx cols row col + 1)]
  rw [if_pos ⟨hdw, hlt⟩]
  apply getD_set_self
  split_ifs <;> simpa [List.length_set] using hlen

lemma WN_getD_ge (a : List GridChar) (cols row col hl : Nat) (t : String)
    (hcol : col < cols) {j : Nat} (hj : row * cols + cols ≤ j) :
    (writeNarrow a cols row col hl t).getD j blankChar = a.getD j blankChar := by
  have hi : cellIdx cols row col < row * cols + cols := by simp only [cellIdx]; omega
  simp only [writeNarrow]
  rw [getD_set_ne _ _ _ (by omega : cellIdx cols row col ≠ j)]
  split_ifs with h1 h2 h3
  · have hlt1 : col + 1 < cols := h1.2
    rw [getD_set_ne _ _ _
        (by simp only [cellIdx] at hi ⊢; omega : cellIdx cols row col + 1 ≠ j),
      getD_set_ne _ _ _ (by omega : cellIdx cols row col - 1 ≠ j)]
  · have hlt1 : col + 1 < cols := h1.2
    rw [getD_set_ne _ _ _
        (by simp only [cellIdx] at hi ⊢; omega : cellIdx cols row col + 1 ≠ j)]
  · rw [getD_set_ne _ _ _ (by omega : cellIdx cols row col - 1 ≠ j)]
  · rfl

lemma WW_getD_self (a : List GridChar) (cols row col hl : Nat) (t : String)
    (h : cellIdx cols row col + 1 < a.length) :
    (writeWide a cols row col hl t).getD (cellIdx cols row col) blankChar
      = ⟨hl % 65536, t, true⟩ := by
  simp only [writeWide]
  rw [getD_set_ne _ _ _ (by omega : cellIdx cols row col + 1 ≠ cellIdx cols row col)]
  apply getD_set_self
  split_ifs <;> (try simp only [List.length_set]) <;> omega

lemma WW_getD_succ (a : List GridChar) (cols row col hl : Nat) (t : String)
    (h : cellIdx cols row col + 1 < a.length) :
    (writeWide a cols row col hl t).getD (cellIdx cols row col + 1) blankChar
      = ⟨hl % 65536, "", false⟩ := by
  simp only [writeWide]
  apply getD_set_self
  simp only [List.length_set]
  split_ifs <;> (try simp only [List.length_set]) <;> omega

/-- Unfolding of one narrow `setRun` step. -/
lemma setRun_false_succ (cols row hl : Nat) (t : String) (a : List GridChar)
    (col n : Nat) :
    setRun cols row hl t false a col (n + 1) =
      if col + 1 ≤ cols then
        setRun cols row hl t false (writeNarrow a cols row col hl t) (col + 1) n
      else (a, col, false) := rfl

/-- Unfolding of one wide `setRun` step. -/
lemma setRun_true_succ (cols row hl : Nat) (t : String) (a : List GridChar)
    (col n : Nat) :
    setRun cols row hl t true a col (n + 1) =
      if col + 2 ≤ cols then
        setRun cols row hl t true (writeWide a cols row col hl t) (col + 2) n
      else (a, col, false) := rfl

lemma setRun_narrow_one (cols row hl : Nat) (t : String) (a : List GridChar) (col : Nat)
    (h : col + 1 ≤ cols) :
    setRun cols row hl t false a col 1 = (writeNarrow a cols row col hl t, col + 1, true) := by
  rw [setRun_false_succ, if_pos h]
  rfl

lemma setRun_narrow_two (cols row hl : Nat) (t : String) (a : List GridChar) (col : Nat)
    (h1 : col + 1 ≤ cols) (h2 : col + 1 + 1 ≤ cols) :
    setRun cols row hl t false a col 2 =
      (writeNarrow (writeNarrow a cols row col hl t) cols row (col + 1) hl t,
        col + 1 + 1, true) := by
  rw [setRun_false_succ, if_pos h1, setRun_false_succ, if_pos h2]
  rfl

lemma setRun_wide_one (cols row hl : Nat) (t : String) (a : List GridChar) (col : Nat)
    (h : col + 2 ≤ cols) :
    setRun cols row hl t true a col 1 = (writeWide a cols row col hl t, col + 2, true) := by
  rw [setRun_true_succ, if_pos h]
  rfl

lemma setRun_narrow_oob (cols row hl : Nat) (t : String) :
    ∀ (rep : Nat) (a : List GridChar) (col : Nat), col ≤ cols → cols < col + rep →
      (setRun cols row hl t false a col rep).2.2 = false := by
  intro rep
  induction rep with
  | zero => intro a col h1 h2; omega
  | succ n ih =>
    intro a col h1 h2
    rw [setRun_false_succ]
    split_ifs with h
    · exact ih _ (col + 1) h (by omega)
    · rfl

lemma setRun_untouched_left (cols row hl : Nat) (t : String) :
    ∀ (rep : Nat) (a : List GridChar) (col : Nat) {j : Nat},
      j + 1 < cellIdx cols row col →
      (setRun cols row hl t false a col rep).1.getD j blankChar = a.getD j blankChar := by
  intro rep
  induction rep with
  | zero => intro a col j hj; rfl
  | succ n ih =>
    intro a col j hj
    rw [setRun_false_succ]
    split_ifs with h
    · rw [ih _ (col + 1) (by simp only [cellIdx] at hj ⊢; omega)]
      exact WN_getD_lt a cols row col hl t hj
    · rfl

lemma setRun_untouched_ge (cols row hl : Nat) (t : String) :
    ∀ (rep : Nat) (a : List GridChar) (col : Nat) {j : Nat}, col ≤ cols →
      row * cols + cols ≤ j →
      (setRun cols row hl t false a col rep).1.getD j blankChar = a.getD j blankChar := by
  intro rep
  induction rep with
  | zero => intro a col j h1 h2; rfl
  | succ n ih =>
    intro a col j h1 h2
    rw [setRun_false_succ]
    split_ifs with h
    · rw [ih _ (col + 1) h h2]
      exact WN_getD_ge a cols row col hl t (by omega) h2
    · rfl

lemma setRun_preserves_pred (cols row hl : Nat) (t : String) :
    ∀ (rep : Nat) (a : List GridChar) (col : Nat), col ≠ 0 →
      (a.getD (cellIdx cols row col - 1) blankChar).double_width = false →
      (setRun cols row hl t false a col rep).1.getD (cellIdx cols row col - 1) blankChar
        = a.getD (cellIdx cols row col - 1) blankChar := by
  intro rep
  induction rep with
  | zero => intro a col hc hdw; rfl
  | succ n ih =>
    intro a col hc hdw
    rw [setRun_false_succ]
    split_ifs with h
    · rw [setRun_untouched_left cols row hl t n _ (col + 1)
        (by simp only [cellIdx]; omega)]
      exact WN_getD_pred_false a cols row col hl t (by simp only [cellIdx]; omega) hdw
    · rfl

lemma setRun_narrow_written (cols row hl : Nat) (t : String) :
    ∀ (rep : Nat) (a : List GridChar) (col : Nat),
      row * cols + cols ≤ a.length →
      ∀ c, col ≤ c → c < cols → c < col + rep →
        (setRun cols row hl t false a col rep).1.getD (cellIdx cols row c) blankChar
          = ⟨hl % 65536, t, false⟩ := by
  intro rep
  induction rep with
  | zero => intro a col hlen c hc1 hc2 hc3; omega
  | succ n ih =>
    intro a col hlen c hc1 hc2 hc3
    rw [setRun_false_succ]
    split_ifs with h
    · by_cases hcc : c = col
      · subst hcc
        have hlt : cellIdx cols row c < a.length := by simp only [cellIdx]; omega
        have hwn := WN_getD_self a cols row c hl t hlt
        have hidx : cellIdx cols row (c + 1) - 1 = cellIdx cols row c := by
          simp only [cellIdx]; omega
        have hpred := setRun_preserves_pred cols row hl t n
          (writeNarrow a cols row c hl t) (c + 1) (by omega)
          (by rw [hidx, hwn])
        rw [hidx] at hpred
        rw [hpred, hwn]
      · exact ih _ (col + 1) (by rw [length_writeNarrow]; exact hlen) c
          (by omega) hc2 (by omega)
    · omega

lemma find_after_resize (s : EditorState) (gid cols rows : Nat) :
    find_grid (grid_resize s gid cols rows).grids gid =
      some (match find_grid s.grids gid with
            | some g => resizeGrid g cols rows
            | none => mkBlankGrid gid cols rows) := by
  cases hf : find_grid s.grids gid with
  | some g =>
    simp only [grid_resize, hf]
    exact find_grid_updateGrids s.grids gid g (resizeGrid g cols rows) hf
      (find_grid_id s.grids gid g hf)
  | none =>
    simp only [grid_resize, hf]
    exact find_grid_append_of_none s.grids gid (mkBlankGrid gid cols rows) hf rfl

lemma WF_applyOp (s : EditorState) (op : Op) (h : WF s) : WF (applyOp s op) := by
  cases op with
  | resize gid cols rows =>
    intro g hg
    simp only [applyOp] at hg
    cases hf : find_grid s.grids gid with
    | some g0 =>
      simp only [grid_resize, hf] at hg
      rcases mem_updateGrids _ _ _ _ hg with h1 | h2
      · subst h1
        show (resizeGrid g0 cols rows).area.length = _
        simp [resizeGrid, length_resizedArea]
      · exact h g h2
    | none =>
      simp only [grid_resize, hf] at hg
      rcases List.mem_append.mp hg with h1 | h2
      · exact h g h1
      · have hgb : g = mkBlankGrid gid cols rows := by simpa using h2
        subst hgb
        simp [mkBlankGrid]
  | line gid row sc runs =>
    intro g hg
    simp only [applyOp] at hg
    cases hf : find_grid s.grids gid with
    | none =>
      simp only [grid_line, hf] at hg
      exact h g hg
    | some g0 =>
      by_cases hr : row < g0.rows
      · simp only [grid_line, hf, if_pos hr] at hg
        rcases mem_updateGrids _ _ _ _ hg with h1 | h2
        · subst h1
          obtain ⟨hrw, hcl, _, _, hlen⟩ := applyRuns_proj row runs g0 sc _
          rw [hrw, hcl, hlen]
          exact h g0 (find_grid_mem _ _ _ hf)
        · exact h g h2
      · simp only [grid_line, hf, if_neg hr] at hg
        exact h g hg
  | goto gid row col => intro g hg; exact h g hg
  | flush => intro g hg; exact h g hg

/-! ## Claim C1 -/

/-- C1: for every starting state satisfying the buffer invariant and every
sequence of resize, line-update, cursor and flush operations, every grid's
`area` buffer has length exactly rows*cols after each operation completes. -/
theorem grid_buffer_length_invariant (s : EditorState) (ops : List Op) (h : WF s) :
    WF (applyOps s ops) := by
  induction ops generalizing s with
  | nil => exact h
  | cons op rest ih => exact ih (applyOp s op) (WF_applyOp s op h)

/-- Witness for C1: a concrete resize-then-line-update-then-resize
sequence starting from the empty state. -/
theorem grid_buffer_length_invariant_witness :
    WF (applyOps initState
      [Op.resize 1 4 2, Op.line 1 0 0 [⟨"x", some 7, 1⟩, ⟨"y", none, 2⟩],
        Op.resize 1 2 1, Op.flush]) :=
  grid_buffer_length_invariant initState
    [Op.resize 1 4 2, Op.line 1 0 0 [⟨"x", some 7, 1⟩, ⟨"y", none, 2⟩],
      Op.resize 1 2 1, Op.flush]
    (by intro g hg; simp [initState] at hg)

/-! ## Claim C2 -/

/-- C2: for every grid state and start column, the line-update with runs
[("x", 7, 1), ("y", absent, 2)] leaves highlight id 7 in all three written
cells: a run with an absent highlight id reuses the highlight id of the
immediately preceding run in the same line-update. -/
theorem hl_carry_over_runs (g : Grid) (row sc initHl : Nat)
    (hWF : g.area.length = g.rows * g.cols)
    (hrow : row < g.rows) (hsc : sc + 3 ≤ g.cols) :
    ((applyRuns row g sc initHl [⟨"x", some 7, 1⟩, ⟨"y", none, 2⟩]).1.area.getD
        (cellIdx g.cols row sc) blankChar).hl_id = 7 ∧
    ((applyRuns row g sc initHl [⟨"x", some 7, 1⟩, ⟨"y", none, 2⟩]).1.area.getD
        (cellIdx g.cols row (sc + 1)) blankChar).hl_id = 7 ∧
    ((applyRuns row g sc initHl [⟨"x", some 7, 1⟩, ⟨"y", none, 2⟩]).1.area.getD
        (cellIdx g.cols row (sc + 2)) blankChar).hl_id = 7 := by
  have hxw : isWideText "x" = false := by decide
  have hyw : isWideText "y" = false := by decide
  have hrowend := row_end_le g.cols hrow
  have hlt0 : cellIdx g.cols row sc < g.area.length := by
    rw [hWF]; simp only [cellIdx]; omega
  have hlt1 : cellIdx g.cols row (sc + 1) <
      (writeNarrow g.area g.cols row sc 7 "x").length := by
    rw [length_writeNarrow, hWF]; simp only [cellIdx]; omega
  have hlt2 : cellIdx g.cols row (sc + 1 + 1) <
      (writeNarrow (writeNarrow g.area g.cols row sc 7 "x") g.cols row (sc + 1) 7
        "y").length := by
    rw [length_writeNarrow, length_writeNarrow, hWF]; simp only [cellIdx]; omega
  have e1 : setRun g.cols row 7 "x" false g.area sc 1
      = (writeNarrow g.area g.cols row sc 7 "x", sc + 1, true) :=
    setRun_narrow_one g.cols row 7 "x" g.area sc (by omega)
  have e2 : setRun g.cols row 7 "y" false (writeNarrow g.area g.cols row sc 7 "x")
        (sc + 1) 2
      = (writeNarrow (writeNarrow (writeNarrow g.area g.cols row sc 7 "x") g.cols row
          (sc + 1) 7 "y") g.cols row (sc + 1 + 1) 7 "y", sc + 1 + 1 + 1, true) :=
    setRun_narrow_two g.cols row 7 "y" (writeNarrow g.area g.cols row sc 7 "x") (sc + 1)
      (by omega) (by omega)
  simp only [applyRuns, set_text, Option.getD_some, Option.getD_none, hxw, hyw, e1, e2,
    if_true]
  refine ⟨?_, ?_, ?_⟩
  · rw [WN_getD_lt _ _ _ _ _ _ (by simp only [cellIdx]; omega :
        cellIdx g.cols row sc + 1 < cellIdx g.cols row (sc + 1 + 1))]
    rw [WN_getD_pred_false _ _ _ _ _ _ (by simp only [cellIdx]; omega :
        cellIdx g.cols row sc + 1 = cellIdx g.cols row (sc + 1))
      (by rw [WN_getD_self g.area g.cols row sc 7 "x" hlt0])]
    rw [WN_getD_self g.area g.cols row sc 7 "x" hlt0]
  · rw [WN_getD_pred_false _ _ _ _ _ _ (by simp only [cellIdx]; omega :
        cellIdx g.cols row (sc + 1) + 1 = cellIdx g.cols row (sc + 1 + 1))
      (by rw [WN_getD_self _ g.cols row (sc + 1) 7 "y" hlt1])]
    rw [WN_getD_self _ g.cols row (sc + 1) 7 "y" hlt1]
  · rw [show sc + 2 = sc + 1 + 1 from rfl]
    rw [WN_getD_self _ g.cols row (sc + 1 + 1) 7 "y" hlt2]

/-- Witness for C2 on a concrete one-row grid. -/
theorem hl_carry_over_runs_witness :
    ((applyRuns 0 ⟨0, 0, 1, 4, 1, List.replicate 4 blankChar, false⟩ 0 0
        [⟨"x", some 7, 1⟩, ⟨"y", none, 2⟩]).1.area.getD 0 blankChar).hl_id = 7 ∧
    ((applyRuns 0 ⟨0, 0, 1, 4, 1, List.replicate 4 blankChar, false⟩ 0 0
        [⟨"x", some 7, 1⟩, ⟨"y", none, 2⟩]).1.area.getD 1 blankChar).hl_id = 7 ∧
    ((applyRuns 0 ⟨0, 0, 1, 4, 1, List.replicate 4 blankChar, false⟩ 0 0
        [⟨"x", some 7, 1⟩, ⟨"y", none, 2⟩]).1.area.getD 2 blankChar).hl_id = 7 :=
  hl_carry_over_runs ⟨0, 0, 1, 4, 1, List.replicate 4 blankChar, false⟩ 0 0 0
    (by decide) (by decide) (by decide)

/-! ## Claim C3 -/

/-- C3: for every grid state and column c, writing a wide glyph at c marks
columns c and c+1 as one double-width pair (the right slot a blank
continuation), and afterwards writing any narrow glyph at either column c
or column c+1 clears the pairing on both halves, so no cell is left as an
orphaned half of a wide pair. -/
theorem double_width_pairing (g : Grid) (row c hl hl2 : Nat) (wt nt : String)
    (hWF : g.area.length = g.rows * g.cols)
    (hrow : row < g.rows) (hc : c + 1 < g.cols)
    (hw : isWideText wt = true) (hn : isWideText nt = false) :
    (((set_text g wt row c hl 1 (isWideText wt)).1.area.getD
        (cellIdx g.cols row c) blankChar).double_width = true ∧
      (set_text g wt row c hl 1 (isWideText wt)).1.area.getD
        (cellIdx g.cols row c + 1) blankChar = ⟨hl % 65536, "", false⟩) ∧
    (((set_text (set_text g wt row c hl 1 (isWideText wt)).1 nt row c hl2 1
          (isWideText nt)).1.area.getD (cellIdx g.cols row c) blankChar).double_width
        = false ∧
      ((set_text (set_text g wt row c hl 1 (isWideText wt)).1 nt row c hl2 1
          (isWideText nt)).1.area.getD (cellIdx g.cols row c + 1) blankChar).double_width
        = false) ∧
    (((set_text (set_text g wt row c hl 1 (isWideText wt)).1 nt row (c + 1) hl2 1
          (isWideText nt)).1.area.getD (cellIdx g.cols row c) blankChar).double_width
        = false ∧
      ((set_text (set_text g wt row c hl 1 (isWideText wt)).1 nt row (c + 1) hl2 1
          (isWideText nt)).1.area.getD (cellIdx g.cols row (c + 1)) blankChar).double_width
        = false) := by
  have hrowend := row_end_le g.cols hrow
  have hi1 : cellIdx g.cols row c + 1 < g.area.length := by
    rw [hWF]; simp only [cellIdx]; omega
  have hA : (set_text g wt row c hl 1 (isWideText wt)).1.area
      = writeWide g.area g.cols row c hl wt := by
    rw [hw]
    show (setRun g.cols row hl wt true g.area c 1).1 = _
    rw [setRun_wide_one g.cols row hl wt g.area c (by omega)]
  have hiA0 : cellIdx g.cols row c < (writeWide g.area g.cols row c hl wt).length := by
    rw [length_writeWide]; omega
  have hiA1 : cellIdx g.cols row c + 1 < (writeWide g.area g.cols row c hl wt).length := by
    rw [length_writeWide]; omega
  have hiA1' : cellIdx g.cols row (c + 1) <
      (writeWide g.area g.cols row c hl wt).length := by
    rw [length_writeWide]
    simp only [cellIdx] at hi1 ⊢
    omega
  have hdwA : ((writeWide g.area g.cols row c hl wt).getD (cellIdx g.cols row c)
      blankChar).double_width = true := by
    rw [WW_getD_self g.area g.cols row c hl wt hi1]
  have hA2 : (set_text (set_text g wt row c hl 1 (isWideText wt)).1 nt row c hl2 1
        (isWideText nt)).1.area
      = writeNarrow (writeWide g.area g.cols row c hl wt) g.cols row c hl2 nt := by
    rw [hn]
    show (setRun g.cols row hl2 nt false
        ((set_text g wt row c hl 1 (isWideText wt)).1.area) c 1).1 = _
    rw [hA]
    rw [setRun_narrow_one g.cols row hl2 nt (writeWide g.area g.cols row c hl wt) c
      (by omega)]
  have hA3 : (set_text (set_text g wt row c hl 1 (isWideText wt)).1 nt row (c + 1) hl2 1
        (isWideText nt)).1.area
      = writeNarrow (writeWide g.area g.cols row c hl wt) g.cols row (c + 1) hl2 nt := by
    rw [hn]
    show (setRun g.cols row hl2 nt false
        ((set_text g wt row c hl 1 (isWideText wt)).1.area) (c + 1) 1).1 = _
    rw [hA]
    rw [setRun_narrow_one g.cols row hl2 nt (writeWide g.area g.cols row c hl wt) (c + 1)
      (by omega)]
  refine ⟨⟨?_, ?_⟩, ⟨?_, ?_⟩, ⟨?_, ?_⟩⟩
  · rw [hA, WW_getD_self g.area g.cols row c hl wt hi1]
  · rw [hA, WW_getD_succ g.area g.cols row c hl wt hi1]
  · rw [hA2, WN_getD_self _ g.cols row c hl2 nt hiA0]
  · rw [hA2, WN_getD_succ_blank _ g.cols row c hl2 nt hdwA hc hiA1]
    rfl
  · rw [hA3, WN_getD_pred_clear _ g.cols row (c + 1) hl2 nt (by omega)
      (by simp only [cellIdx]; omega) hdwA hiA0]
    rfl
  · rw [hA3, WN_getD_self _ g.cols row (c + 1) hl2 nt hiA1']

/-- Witness for C3 on a concrete one-row grid with a CJK wide glyph. -/
theorem double_width_pairing_witness :
    (((set_text ⟨0, 0, 1, 4, 1, List.replicate 4 blankChar, false⟩ "好" 0 1 5 1
        (isWideText "好")).1.area.getD (cellIdx 4 0 1) blankChar).double_width = true ∧
      (set_text ⟨0, 0, 1, 4, 1, List.replicate 4 blankChar, false⟩ "好" 0 1 5 1
        (isWideText "好")).1.area.getD (cellIdx 4 0 1 + 1) blankChar
        = ⟨5 % 65536, "", false⟩) ∧
    (((set_text (set_text ⟨0, 0, 1, 4, 1, List.replicate 4 blankChar, false⟩ "好" 0 1 5 1
          (isWideText "好")).1 "z" 0 1 6 1 (isWideText "z")).1.area.getD
          (cellIdx 4 0 1) blankChar).double_width = false ∧
      ((set_text (set_text ⟨0, 0, 1, 4, 1, List.replicate 4 blankChar, false⟩ "好" 0 1 5 1
          (isWideText "好")).1 "z" 0 1 6 1 (isWideText "z")).1.area.getD
          (cellIdx 4 0 1 + 1) blankChar).double_width = false) ∧
    (((set_text (set_text ⟨0, 0, 1, 4, 1, List.replicate 4 blankChar, false⟩ "好" 0 1 5 1
          (isWideText "好")).1 "z" 0 (1 + 1) 6 1 (isWideText "z")).1.area.getD
          (cellIdx 4 0 1) blankChar).double_width = false ∧
      ((set_text (set_text ⟨0, 0, 1, 4, 1, List.replicate 4 blankChar, false⟩ "好" 0 1 5 1
          (isWideText "好")).1 "z" 0 (1 + 1) 6 1 (isWideText "z")).1.area.getD
          (cellIdx 4 0 (1 + 1)) blankChar).double_width = false) :=
  double_width_pairing ⟨0, 0, 1, 4, 1, List.replicate 4 blankChar, false⟩ 0 1 5 6 "好" "z"
    (by decide) (by decide) (by decide) (by decide) (by decide)

/-! ## Claim C4 -/

lemma WW_getD_lt (a : List GridChar) (cols row col hl : Nat) (t : String)
    {j : Nat} (hj : j + 1 < cellIdx cols row col) :
    (writeWide a cols row col hl t).getD j blankChar = a.getD j blankChar := by
  simp only [writeWide]
  rw [getD_set_ne _ _ _ (by omega : cellIdx cols row col + 1 ≠ j),
    getD_set_ne _ _ _ (by omega : cellIdx cols row col ≠ j)]
  split_ifs
  · rw [getD_set_ne _ _ _ (by omega : cellIdx cols row col + 2 ≠ j),
      getD_set_ne _ _ _ (by omega : cellIdx cols row col - 1 ≠ j)]
  · rw [getD_set_ne _ _ _ (by omega : cellIdx cols row col + 2 ≠ j)]
  · rw [getD_set_ne _ _ _ (by omega : cellIdx cols row col - 1 ≠ j)]
  · rfl

lemma WW_getD_ge (a : List GridChar) (cols row col hl : Nat) (t : String)
    (hcol : col + 2 ≤ cols) {j : Nat} (hj : row * cols + cols ≤ j) :
    (writeWide a cols row col hl t).getD j blankChar = a.getD j blankChar := by
  have hi : cellIdx cols row col + 2 ≤ row * cols + cols := by simp only [cellIdx]; omega
  simp only [writeWide]
  rw [getD_set_ne _ _ _ (by omega : cellIdx cols row col + 1 ≠ j),
    getD_set_ne _ _ _ (by omega : cellIdx cols row col ≠ j)]
  split_ifs with h1 h2 h3
  · have hlt2 : col + 2 < cols := h1.2
    rw [getD_set_ne _ _ _
        (by simp only [cellIdx] at hi ⊢; omega : cellIdx cols row col + 2 ≠ j),
      getD_set_ne _ _ _ (by omega : cellIdx cols row col - 1 ≠ j)]
  · have hlt2 : col + 2 < cols := h1.2
    rw [getD_set_ne _ _ _
        (by simp only [cellIdx] at hi ⊢; omega : cellIdx cols row col + 2 ≠ j)]
  · rw [getD_set_ne _ _ _ (by omega : cellIdx cols row col - 1 ≠ j)]
  · rfl

lemma setRun_col_ge (cols row hl : Nat) (t : String) (wide : Bool) :
    ∀ (rep : Nat) (a : List GridChar) (col : Nat),
      col ≤ (setRun cols row hl t wide a col rep).2.1 := by
  intro rep
  induction rep with
  | zero => intro a col; exact Nat.le_refl col
  | succ n ih =>
    intro a col
    cases wide
    · rw [setRun_false_succ]
      split_ifs with h
      · exact Nat.le_trans (by omega) (ih _ (col + 1))
      · exact Nat.le_refl col
    · rw [setRun_true_succ]
      split_ifs with h
      · exact Nat.le_trans (by omega) (ih _ (col + 2))
      · exact Nat.le_refl col

lemma setRun_col_of_ok (cols row hl : Nat) (t : String) (wide : Bool) :
    ∀ (rep : Nat) (a : List GridChar) (col : Nat),
      (setRun cols row hl t wide a col rep).2.2 = true →
      (setRun cols row hl t wide a col rep).2.1
        = col + (if wide = true then 2 else 1) * rep := by
  intro rep
  induction rep with
  | zero => intro a col _; cases wide <;> simp [setRun]
  | succ n ih =>
    intro a col hok
    cases wide
    · rw [setRun_false_succ] at hok ⊢
      by_cases h : col + 1 ≤ cols
      · rw [if_pos h] at hok ⊢
        rw [ih _ (col + 1) hok]
        rw [show (if (false = true) then 2 else 1) = 1 from rfl]
        omega
      · rw [if_neg h] at hok
        simp at hok
    · rw [setRun_true_succ] at hok ⊢
      by_cases h : col + 2 ≤ cols
      · rw [if_pos h] at hok ⊢
        rw [ih _ (col + 2) hok]
        rw [show (if (true = true) then 2 else 1) = 2 from rfl]
        omega
      · rw [if_neg h] at hok
        simp at hok

lemma setRun_ok_col_le (cols row hl : Nat) (t : String) (wide : Bool) :
    ∀ (rep : Nat) (a : List GridChar) (col : Nat), col ≤ cols →
      (setRun cols row hl t wide a col rep).2.2 = true →
      (setRun cols row hl t wide a col rep).2.1 ≤ cols := by
  intro rep
  induction rep with
  | zero => intro a col h _; exact h
  | succ n ih =>
    intro a col h hok
    cases wide
    · rw [setRun_false_succ] at hok ⊢
      by_cases hfit : col + 1 ≤ cols
      · rw [if_pos hfit] at hok ⊢
        exact ih _ (col + 1) hfit hok
      · rw [if_neg hfit] at hok
        simp at hok
    · rw [setRun_true_succ] at hok ⊢
      by_cases hfit : col + 2 ≤ cols
      · rw [if_pos hfit] at hok ⊢
        exact ih _ (col + 2) hfit hok
      · rw [if_neg hfit] at hok
        simp at hok

lemma setRun_ok_of_fits (cols row hl : Nat) (t : String) (wide : Bool) :
    ∀ (rep : Nat) (a : List GridChar) (col : Nat),
      col + (if wide = true then 2 else 1) * rep ≤ cols →
      (setRun cols row hl t wide a col rep).2.2 = true := by
  intro rep
  induction rep with
  | zero => intro a col _; rfl
  | succ n ih =>
    intro a col hfits
    cases wide
    · rw [show (if ((false : Bool) = true) then 2 else 1) = 1 from rfl] at hfits
      rw [setRun_false_succ, if_pos (by omega)]
      apply ih _ (col + 1)
      rw [show (if ((false : Bool) = true) then 2 else 1) = 1 from rfl]
      omega
    · rw [show (if ((true : Bool) = true) then 2 else 1) = 2 from rfl] at hfits
      rw [setRun_true_succ, if_pos (by omega)]
      apply ih _ (col + 2)
      rw [show (if ((true : Bool) = true) then 2 else 1) = 2 from rfl]
      omega

lemma setRun_untouched_left_any (cols row hl : Nat) (t : String) (wide : Bool) :
    ∀ (rep : Nat) (a : List GridChar) (col : Nat) {j : Nat},
      j + 1 < cellIdx cols row col →
      (setRun cols row hl t wide a col rep).1.getD j blankChar = a.getD j blankChar := by
  intro rep
  induction rep with
  | zero => intro a col j hj; rfl
  | succ n ih =>
    intro a col j hj
    cases wide
    · rw [setRun_false_succ]
      split_ifs with h
      · rw [ih _ (col + 1) (by simp only [cellIdx] at hj ⊢; omega)]
        exact WN_getD_lt a cols row col hl t hj
      · rfl
    · rw [setRun_true_succ]
      split_ifs with h
      · rw [ih _ (col + 2) (by simp only [cellIdx] at hj ⊢; omega)]
        exact WW_getD_lt a cols row col hl t hj
      · rfl

lemma setRun_untouched_ge_any (cols row hl : Nat) (t : String) (wide : Bool) :
    ∀ (rep : Nat) (a : List GridChar) (col : Nat) {j : Nat}, col ≤ cols →
      row * cols + cols ≤ j →
      (setRun cols row hl t wide a col rep).1.getD j blankChar = a.getD j blankChar := by
  intro rep
  induction rep with
  | zero => intro a col j h1 h2; rfl
  | succ n ih =>
    intro a col j h1 h2
    cases wide
    · rw [setRun_false_succ]
      split_ifs with h
      · rw [ih _ (col + 1) h h2]
        exact WN_getD_ge a cols row col hl t (by omega) h2
      · rfl
    · rw [setRun_true_succ]
      split_ifs with h
      · rw [ih _ (col + 2) (by omega) h2]
        exact WW_getD_ge a cols row col hl t h h2
      · rfl

lemma applyRuns_false_of_oob (row : Nat) :
    ∀ (runs : List LineRun) (g : Grid) (col lh : Nat),
      col ≤ g.cols → g.cols < col + runsWidth runs →
      (applyRuns row g col lh runs).2 = false := by
  intro runs
  induction runs with
  | nil =>
    intro g col lh h1 h2
    exfalso
    simp only [runsWidth] at h2
    omega
  | cons r rs ih =>
    intro g col lh h1 h2
    simp only [applyRuns]
    by_cases hok : (set_text g r.text row col (r.hl.getD lh) r.rep
        (isWideText r.text)).2.2 = true
    · rw [if_pos hok]
      have hcol : (set_text g r.text row col (r.hl.getD lh) r.rep
          (isWideText r.text)).2.1
          = col + (if isWideText r.text = true then 2 else 1) * r.rep :=
        setRun_col_of_ok g.cols row (r.hl.getD lh) r.text (isWideText r.text) r.rep
          g.area col hok
      have hle : (set_text g r.text row col (r.hl.getD lh) r.rep
          (isWideText r.text)).2.1 ≤ g.cols :=
        setRun_ok_col_le g.cols row (r.hl.getD lh) r.text (isWideText r.text) r.rep
          g.area col h1 hok
      have hgoal : g.cols < (set_text g r.text row col (r.hl.getD lh) r.rep
          (isWideText r.text)).2.1 + runsWidth rs := by
        rw [hcol]
        simp only [runsWidth] at h2
        omega
      exact ih (set_text g r.text row col (r.hl.getD lh) r.rep (isWideText r.text)).1
        (set_text g r.text row col (r.hl.getD lh) r.rep (isWideText r.text)).2.1
        (r.hl.getD lh) hle hgoal
    · rw [if_neg hok]

lemma applyRuns_untouched_ge (row : Nat) :
    ∀ (runs : List LineRun) (g : Grid) (col lh : Nat) {j : Nat},
      col ≤ g.cols → row * g.cols + g.cols ≤ j →
      (applyRuns row g col lh runs).1.area.getD j blankChar
        = g.area.getD j blankChar := by
  intro runs
  induction runs with
  | nil => intro g col lh j h1 h2; rfl
  | cons r rs ih =>
    intro g col lh j h1 h2
    simp only [applyRuns]
    by_cases hok : (set_text g r.text row col (r.hl.getD lh) r.rep
        (isWideText r.text)).2.2 = true
    · rw [if_pos hok]
      have hle : (set_text g r.text row col (r.hl.getD lh) r.rep
          (isWideText r.text)).2.1 ≤ g.cols :=
        setRun_ok_col_le g.cols row (r.hl.getD lh) r.text (isWideText r.text) r.rep
          g.area col h1 hok
      rw [ih (set_text g r.text row col (r.hl.getD lh) r.rep (isWideText r.text)).1
        (set_text g r.text row col (r.hl.getD lh) r.rep (isWideText r.text)).2.1
        (r.hl.getD lh) hle h2]
      show (setRun g.cols row (r.hl.getD lh) r.text (isWideText r.text) g.area col
        r.rep).1.getD j blankChar = _
      exact setRun_untouched_ge_any g.cols row (r.hl.getD lh) r.text (isWideText r.text)
        r.rep g.area col h1 h2
    · rw [if_neg hok]
      show (setRun g.cols row (r.hl.getD lh) r.text (isWideText r.text) g.area col
        r.rep).1.getD j blankChar = _
      exact setRun_untouched_ge_any g.cols row (r.hl.getD lh) r.text (isWideText r.text)
        r.rep g.area col h1 h2

lemma applyRuns_untouched_left (row : Nat) :
    ∀ (runs : List LineRun) (g : Grid) (col lh : Nat) {j : Nat},
      j + 1 < cellIdx g.cols row col →
      (applyRuns row g col lh runs).1.area.getD j blankChar
        = g.area.getD j blankChar := by
  intro runs
  induction runs with
  | nil => intro g col lh j hj; rfl
  | cons r rs ih =>
    intro g col lh j hj
    simp only [applyRuns]
    by_cases hok : (set_text g r.text row col (r.hl.getD lh) r.rep
        (isWideText r.text)).2.2 = true
    · rw [if_pos hok]
      have hge : col ≤ (setRun g.cols row (r.hl.getD lh) r.text (isWideText r.text)
          g.area col r.rep).2.1 :=
        setRun_col_ge g.cols row (r.hl.getD lh) r.text (isWideText r.text) r.rep
          g.area col
      have hj2 : j + 1 < cellIdx g.cols row ((set_text g r.text row col (r.hl.getD lh)
          r.rep (isWideText r.text)).2.1) := by
        show j + 1 < cellIdx g.cols row ((setRun g.cols row (r.hl.getD lh) r.text
          (isWideText r.text) g.area col r.rep).2.1)
        simp only [cellIdx] at hj ⊢
        omega
      rw [ih (set_text g r.text row col (r.hl.getD lh) r.rep (isWideText r.text)).1
        (set_text g r.text row col (r.hl.getD lh) r.rep (isWideText r.text)).2.1
        (r.hl.getD lh) hj2]
      show (setRun g.cols row (r.hl.getD lh) r.text (isWideText r.text) g.area col
        r.rep).1.getD j blankChar = _
      exact setRun_untouched_left_any g.cols row (r.hl.getD lh) r.text (isWideText r.text)
        r.rep g.area col hj
    · rw [if_neg hok]
      show (setRun g.cols row (r.hl.getD lh) r.text (isWideText r.text) g.area col
        r.rep).1.getD j blankChar = _
      exact setRun_untouched_left_any g.cols row (r.hl.getD lh) r.text (isWideText r.text)
        r.rep g.area col hj

lemma applyRuns_prefix_agree (row : Nat) :
    ∀ (done rest : List LineRun) (g : Grid) (col lh : Nat) {j : Nat},
      col + runsWidth done ≤ g.cols →
      j + 1 < cellIdx g.cols row (col + runsWidth done) →
      (applyRuns row g col lh (done ++ rest)).1.area.getD j blankChar
        = (applyRuns row g col lh done).1.area.getD j blankChar := by
  intro done
  induction done with
  | nil =>
    intro rest g col lh j hfits hj
    exact applyRuns_untouched_left row rest g col lh hj
  | cons r done2 ih =>
    intro rest g col lh j hfits hj
    have hw : runsWidth (r :: done2)
        = (if isWideText r.text = true then 2 else 1) * r.rep + runsWidth done2 := rfl
    have hok : (set_text g r.text row col (r.hl.getD lh) r.rep
        (isWideText r.text)).2.2 = true := by
      apply setRun_ok_of_fits g.cols row (r.hl.getD lh) r.text (isWideText r.text)
        r.rep g.area col
      rw [hw] at hfits
      omega
    have hcol : (set_text g r.text row col (r.hl.getD lh) r.rep
        (isWideText r.text)).2.1
        = col + (if isWideText r.text = true then 2 else 1) * r.rep :=
      setRun_col_of_ok g.cols row (r.hl.getD lh) r.text (isWideText r.text) r.rep
        g.area col hok
    have e : (set_text g r.text row col (r.hl.getD lh) r.rep
        (isWideText r.text)).2.1 + runsWidth done2 = col + runsWidth (r :: done2) := by
      rw [hcol, hw]
      omega
    have hfits2 : (set_text g r.text row col (r.hl.getD lh) r.rep
        (isWideText r.text)).2.1 + runsWidth done2 ≤ g.cols := by
      rw [e]
      exact hfits
    have hj2 : j + 1 < cellIdx g.cols row ((set_text g r.text row col (r.hl.getD lh)
        r.rep (isWideText r.text)).2.1 + runsWidth done2) := by
      rw [e]
      exact hj
    show (applyRuns row g col lh (r :: (done2 ++ rest))).1.area.getD j blankChar = _
    simp only [applyRuns]
    rw [if_pos hok, if_pos hok]
    exact ih rest (set_text g r.text row col (r.hl.getD lh) r.rep
        (isWideText r.text)).1
      (set_text g r.text row col (r.hl.getD lh) r.rep (isWideText r.text)).2.1
      (r.hl.getD lh) hfits2 hj2

lemma applyRuns_violating_narrow (row : Nat) :
    ∀ (done : List LineRun) (r : LineRun) (rest : List LineRun) (g : Grid)
      (col lh : Nat),
      row * g.cols + g.cols ≤ g.area.length →
      col + runsWidth done ≤ g.cols →
      isWideText r.text = false →
      g.cols < col + runsWidth done + r.rep →
      ∀ c, col + runsWidth done ≤ c → c < g.cols →
        (applyRuns row g col lh (done ++ r :: rest)).1.area.getD
            (cellIdx g.cols row c) blankChar
          = ⟨(r.hl.getD (runsCarry lh done)) % 65536, r.text, false⟩ := by
  intro done
  induction done with
  | nil =>
    intro r rest g col lh hlen hfits hn hoob c hc1 hc2
    show (applyRuns row g col lh (r :: rest)).1.area.getD
      (cellIdx g.cols row c) blankChar = _
    simp only [applyRuns, hn]
    have hokf : (set_text g r.text row col (r.hl.getD lh) r.rep false).2.2 = false := by
      show (setRun g.cols row (r.hl.getD lh) r.text false g.area col r.rep).2.2 = false
      apply setRun_narrow_oob g.cols row (r.hl.getD lh) r.text r.rep g.area col
      · show col ≤ g.cols
        simp only [runsWidth] at hfits
        omega
      · simp only [runsWidth] at hoob
        omega
    rw [hokf]
    simp only [Bool.false_eq_true, if_false]
    show (setRun g.cols row (r.hl.getD lh) r.text false g.area col r.rep).1.getD
      (cellIdx g.cols row c) blankChar = _
    apply setRun_narrow_written g.cols row (r.hl.getD lh) r.text r.rep g.area col hlen c
    · simp only [runsWidth] at hc1
      omega
    · exact hc2
    · simp only [runsWidth] at hoob hc1
      omega
  | cons r0 done2 ih =>
    intro r rest g col lh hlen hfits hn hoob c hc1 hc2
    have hw : runsWidth (r0 :: done2)
        = (if isWideText r0.text = true then 2 else 1) * r0.rep + runsWidth done2 := rfl
    have hok : (set_text g r0.text row col (r0.hl.getD lh) r0.rep
        (isWideText r0.text)).2.2 = true := by
      apply setRun_ok_of_fits g.cols row (r0.hl.getD lh) r0.text (isWideText r0.text)
        r0.rep g.area col
      rw [hw] at hfits
      omega
    have hcol : (set_text g r0.text row col (r0.hl.getD lh) r0.rep
        (isWideText r0.text)).2.1
        = col + (if isWideText r0.text = true then 2 else 1) * r0.rep :=
      setRun_col_of_ok g.cols row (r0.hl.getD lh) r0.text (isWideText r0.text) r0.rep
        g.area col hok
    have e : (set_text g r0.text row col (r0.hl.getD lh) r0.rep
        (isWideText r0.text)).2.1 + runsWidth done2 = col + runsWidth (r0 :: done2) := by
      rw [hcol, hw]
      omega
    have hlen2 : row * g.cols + g.cols ≤
        (set_text g r0.text row col (r0.hl.getD lh) r0.rep
          (isWideText r0.text)).1.area.length := by
      show row * g.cols + g.cols ≤ (setRun g.cols row (r0.hl.getD lh) r0.text
        (isWideText r0.text) g.area col r0.rep).1.length
      rw [length_setRun]
      exact hlen
    have hfits2 : (set_text g r0.text row col (r0.hl.getD lh) r0.rep
        (isWideText r0.text)).2.1 + runsWidth done2 ≤ g.cols := by
      rw [e]
      exact hfits
    have hoob2 : g.cols < (set_text g r0.text row col (r0.hl.getD lh) r0.rep
        (isWideText r0.text)).2.1 + runsWidth done2 + r.rep := by
      rw [e]
      exact hoob
    have hc12 : (set_text g r0.text row col (r0.hl.getD lh) r0.rep
        (isWideText r0.text)).2.1 + runsWidth done2 ≤ c := by
      rw [e]
      exact hc1
    show (applyRuns row g col lh (r0 :: (done2 ++ r :: rest))).1.area.getD
      (cellIdx g.cols row c) blankChar = _
    simp only [applyRuns]
    rw [if_pos hok]
    exact ih r rest (set_text g r0.text row col (r0.hl.getD lh) r0.rep
        (isWideText r0.text)).1
      (set_text g r0.text row col (r0.hl.getD lh) r0.rep (isWideText r0.text)).2.1
      (r0.hl.getD lh) hlen2 hfits2 hn hoob2 c hc12 hc2

/-- C4: every line-update whose run expansion would write past the grid's
cols — any number of runs, narrow or wide glyphs, explicit or absent
highlight ids — reports OutOfBounds and is not applied beyond the boundary:
nothing at or past the end of the row changes, every cell written by the
runs that fit before the violation keeps its new value, the partial writes
of a narrow violating run remain (with the carried highlight id), and the
engine keeps processing subsequent events. -/
theorem out_of_bounds_truncation (s : EditorState) (gid row sc : Nat)
    (runs : List LineRun) (g : Grid)
    (hfind : find_grid s.grids gid = some g)
    (hWF : g.area.length = g.rows * g.cols)
    (hrow : row < g.rows)
    (hsc : sc ≤ g.cols)
    (hoob : g.cols < sc + runsWidth runs) :
    (grid_line s gid row sc runs).2 = some NvErr.OutOfBounds ∧
    (∃ g', find_grid (grid_line s gid row sc runs).1.grids gid = some g' ∧
      g'.rows = g.rows ∧ g'.cols = g.cols ∧ g'.area.length = g.area.length ∧
      (∀ j, row * g.cols + g.cols ≤ j →
        g'.area.getD j blankChar = g.area.getD j blankChar) ∧
      (∀ done rest, runs = done ++ rest → sc + runsWidth done ≤ g.cols →
        ∀ j, j + 1 < cellIdx g.cols row (sc + runsWidth done) →
          g'.area.getD j blankChar
            = (applyRuns row g sc
                ((g.area.getD (cellIdx g.cols row sc) blankChar).hl_id)
                done).1.area.getD j blankChar) ∧
      (∀ done r rest, runs = done ++ r :: rest → sc + runsWidth done ≤ g.cols →
        isWideText r.text = false → g.cols < sc + runsWidth done + r.rep →
        ∀ c, sc + runsWidth done ≤ c → c < g.cols →
          g'.area.getD (cellIdx g.cols row c) blankChar
            = ⟨(r.hl.getD (runsCarry
                ((g.area.getD (cellIdx g.cols row sc) blankChar).hl_id) done)) % 65536,
                r.text, false⟩)) ∧
    (∀ rest, applyOps s (Op.line gid row sc runs :: rest) =
      applyOps ((grid_line s gid row sc runs).1) rest) := by
  have hrowend := row_end_le g.cols hrow
  have hlen : row * g.cols + g.cols ≤ g.area.length := by omega
  have hfail : (applyRuns row g sc
      ((g.area.getD (cellIdx g.cols row sc) blankChar).hl_id) runs).2 = false :=
    applyRuns_false_of_oob row runs g sc _ hsc hoob
  refine ⟨?_, ?_, fun rest => rfl⟩
  · simp only [grid_line, hfind, if_pos hrow, hfail]
    simp
  · refine ⟨(applyRuns row g sc
        ((g.area.getD (cellIdx g.cols row sc) blankChar).hl_id) runs).1,
      ?_, (applyRuns_proj row runs g sc _).1, (applyRuns_proj row runs g sc _).2.1,
      (applyRuns_proj row runs g sc _).2.2.2.2, ?_, ?_, ?_⟩
    · simp only [grid_line, hfind, if_pos hrow]
      apply find_grid_updateGrids s.grids gid g _ hfind
      rw [(applyRuns_proj row runs g sc _).2.2.1]
      exact find_grid_id s.grids gid g hfind
    · intro j hj
      exact applyRuns_untouched_ge row runs g sc _ hsc hj
    · intro done rest hsplit hfits j hj
      subst hsplit
      exact applyRuns_prefix_agree row done rest g sc _ hfits hj
    · intro done r rest hsplit hfits hn hoob2 c hc1 hc2
      subst hsplit
      exact applyRuns_violating_narrow row done r rest g sc _ hlen hfits hn hoob2 c
        hc1 hc2

/-- Witness for C4: a 2x3 grid, a two-run update (one fitting run with an
absent highlight, then a run of 4 copies of "a" overflowing the row). -/
theorem out_of_bounds_truncation_witness :
    (grid_line (grid_resize initState 1 3 2) 1 0 1
        [⟨"b", none, 1⟩, ⟨"a", some 3, 4⟩]).2 = some NvErr.OutOfBounds ∧
    (∃ g', find_grid (grid_line (grid_resize initState 1 3 2) 1 0 1
          [⟨"b", none, 1⟩, ⟨"a", some 3, 4⟩]).1.grids 1 = some g' ∧
      g'.rows = (mkBlankGrid 1 3 2).rows ∧ g'.cols = (mkBlankGrid 1 3 2).cols ∧
      g'.area.length = (mkBlankGrid 1 3 2).area.length ∧
      (∀ j, 0 * (mkBlankGrid 1 3 2).cols + (mkBlankGrid 1 3 2).cols ≤ j →
        g'.area.getD j blankChar = (mkBlankGrid 1 3 2).area.getD j blankChar) ∧
      (∀ done rest, ([⟨"b", none, 1⟩, ⟨"a", some 3, 4⟩] : List LineRun)
          = done ++ rest → 1 + runsWidth done ≤ (mkBlankGrid 1 3 2).cols →
        ∀ j, j + 1 < cellIdx (mkBlankGrid 1 3 2).cols 0 (1 + runsWidth done) →
          g'.area.getD j blankChar
            = (applyRuns 0 (mkBlankGrid 1 3 2) 1
                (((mkBlankGrid 1 3 2).area.getD
                  (cellIdx (mkBlankGrid 1 3 2).cols 0 1) blankChar).hl_id)
                done).1.area.getD j blankChar) ∧
      (∀ done r rest, ([⟨"b", none, 1⟩, ⟨"a", some 3, 4⟩] : List LineRun)
          = done ++ r :: rest → 1 + runsWidth done ≤ (mkBlankGrid 1 3 2).cols →
        isWideText r.text = false →
        (mkBlankGrid 1 3 2).cols < 1 + runsWidth done + r.rep →
        ∀ c, 1 + runsWidth done ≤ c → c < (mkBlankGrid 1 3 2).cols →
          g'.area.getD (cellIdx (mkBlankGrid 1 3 2).cols 0 c) blankChar
            = ⟨(r.hl.getD (runsCarry
                (((mkBlankGrid 1 3 2).area.getD
                  (cellIdx (mkBlankGrid 1 3 2).cols 0 1) blankChar).hl_id)
                done)) % 65536, r.text, false⟩)) ∧
    (∀ rest, applyOps (grid_resize initState 1 3 2)
        (Op.line 1 0 1 [⟨"b", none, 1⟩, ⟨"a", some 3, 4⟩] :: rest) =
      applyOps ((grid_line (grid_resize initState 1 3 2) 1 0 1
        [⟨"b", none, 1⟩, ⟨"a", some 3, 4⟩]).1) rest) :=
  out_of_bounds_truncation (grid_resize initState 1 3 2) 1 0 1
    [⟨"b", none, 1⟩, ⟨"a", some 3, 4⟩] (mkBlankGrid 1 3 2)
    (by decide) (by decide) (by decide) (by decide) (by decide)

/-! ## Claim C5 -/

lemma getD_resizedArea (oR oC nC n : Nat) (old : List GridChar) {i : Nat} (h : i < n) :
    (resizedArea oR oC nC n old).getD i blankChar =
      if i / nC < oR ∧ i % nC < oC then old.getD (i / nC * oC + i % nC) blankChar
      else blankChar := by
  rw [List.getD_eq_getElem?_getD]
  simp only [resizedArea]
  rw [List.getElem?_map, List.getElem?_range h]
  simp

lemma div_mod_cell {r c nC : Nat} (hc : c < nC) :
    (r * nC + c) / nC = r ∧ (r * nC + c) % nC = c := by
  have hnc : 0 < nC := by omega
  have e : r * nC + c = c + nC * r := by ring
  constructor
  · rw [e, Nat.add_mul_div_left c r hnc, Nat.div_eq_of_lt hc, Nat.zero_add]
  · rw [e, Nat.add_mul_mod_self_left, Nat.mod_eq_of_lt hc]

/-- C5: resizing preserves previously stored cells top-left aligned (every
cell in range of both the old and new dimensions keeps its content), fills
newly created cells with blank text and the default highlight id (every
cell outside the old range is blank), and never reads outside the old
buffer (extending the old buffer with arbitrary junk does not change the
reallocated buffer). -/
theorem resize_preserve_truncate (g : Grid) (cols rows : Nat)
    (hWF : g.area.length = g.rows * g.cols) :
    (resizeGrid g cols rows).area.length = (rows % 65536) * (cols % 65536) ∧
    (∀ r c, r < g.rows → r < rows % 65536 → c < g.cols → c < cols % 65536 →
      (resizeGrid g cols rows).area.getD (r * (cols % 65536) + c) blankChar
        = g.area.getD (r * g.cols + c) blankChar) ∧
    (∀ r c, r < rows % 65536 → c < cols % 65536 → (g.rows ≤ r ∨ g.cols ≤ c) →
      (resizeGrid g cols rows).area.getD (r * (cols % 65536) + c) blankChar
        = blankChar) ∧
    (∀ extra : List GridChar,
      resizedArea g.rows g.cols (cols % 65536) ((rows % 65536) * (cols % 65536))
          (g.area ++ extra)
        = resizedArea g.rows g.cols (cols % 65536) ((rows % 65536) * (cols % 65536))
          g.area) := by
  refine ⟨length_resizedArea _ _ _ _ _, ?_, ?_, ?_⟩
  · intro r c h1 h2 h3 h4
    have hre := row_end_le (cols % 65536) h2
    have hidx : r * (cols % 65536) + c < (rows % 65536) * (cols % 65536) := by omega
    show (resizedArea g.rows g.cols (cols % 65536) ((rows % 65536) * (cols % 65536))
      g.area).getD (r * (cols % 65536) + c) blankChar = _
    rw [getD_resizedArea _ _ _ _ _ hidx]
    obtain ⟨hdiv, hmod⟩ := div_mod_cell h4
    rw [hdiv, hmod, if_pos ⟨h1, h3⟩]
  · intro r c h2 h4 h5
    have hre := row_end_le (cols % 65536) h2
    have hidx : r * (cols % 65536) + c < (rows % 65536) * (cols % 65536) := by omega
    show (resizedArea g.rows g.cols (cols % 65536) ((rows % 65536) * (cols % 65536))
      g.area).getD (r * (cols % 65536) + c) blankChar = _
    rw [getD_resizedArea _ _ _ _ _ hidx]
    obtain ⟨hdiv, hmod⟩ := div_mod_cell h4
    rw [hdiv, hmod, if_neg (fun hcon => by rcases h5 with h | h <;> omega)]
  · intro extra
    simp only [resizedArea]
    apply List.map_congr_left
    intro i hi
    by_cases hcase : i / (cols % 65536) < g.rows ∧ i % (cols % 65536) < g.cols
    · rw [if_pos hcase, if_pos hcase]
      have hre := row_end_le g.cols hcase.1
      have hidx : i / (cols % 65536) * g.cols + i % (cols % 65536) < g.area.length := by
        have h2 := hcase.2
        omega
      rw [List.getD_eq_getElem?_getD, List.getD_eq_getElem?_getD,
        List.getElem?_append_left hidx]
    · rw [if_neg hcase, if_neg hcase]

/-- Witness for C5: a 2x3 grid resized to 4 rows and 2 cols. -/
theorem resize_preserve_truncate_witness :
    (resizeGrid ⟨0, 0, 2, 3, 1, List.replicate 6 blankChar, false⟩ 2 4).area.length
        = (4 % 65536) * (2 % 65536) ∧
    (∀ r c, r < (⟨0, 0, 2, 3, 1, List.replicate 6 blankChar, false⟩ : Grid).rows →
      r < 4 % 65536 →
      c < (⟨0, 0, 2, 3, 1, List.replicate 6 blankChar, false⟩ : Grid).cols →
      c < 2 % 65536 →
      (resizeGrid ⟨0, 0, 2, 3, 1, List.replicate 6 blankChar, false⟩ 2 4).area.getD
          (r * (2 % 65536) + c) blankChar
        = (⟨0, 0, 2, 3, 1, List.replicate 6 blankChar, false⟩ : Grid).area.getD
          (r * (⟨0, 0, 2, 3, 1, List.replicate 6 blankChar, false⟩ : Grid).cols + c)
          blankChar) ∧
    (∀ r c, r < 4 % 65536 → c < 2 % 65536 →
      ((⟨0, 0, 2, 3, 1, List.replicate 6 blankChar, false⟩ : Grid).rows ≤ r ∨
        (⟨0, 0, 2, 3, 1, List.replicate 6 blankChar, false⟩ : Grid).cols ≤ c) →
      (resizeGrid ⟨0, 0, 2, 3, 1, List.replicate 6 blankChar, false⟩ 2 4).area.getD
          (r * (2 % 65536) + c) blankChar = blankChar) ∧
    (∀ extra : List GridChar,
      resizedArea (⟨0, 0, 2, 3, 1, List.replicate 6 blankChar, false⟩ : Grid).rows
          (⟨0, 0, 2, 3, 1, List.replicate 6 blankChar, false⟩ : Grid).cols (2 % 65536)
          ((4 % 65536) * (2 % 65536))
          ((⟨0, 0, 2, 3, 1, List.replicate 6 blankChar, false⟩ : Grid).area ++ extra)
        = resizedArea (⟨0, 0, 2, 3, 1, List.replicate 6 blankChar, false⟩ : Grid).rows
          (⟨0, 0, 2, 3, 1, List.replicate 6 blankChar, false⟩ : Grid).cols (2 % 65536)
          ((4 % 65536) * (2 % 65536))
          (⟨0, 0, 2, 3, 1, List.replicate 6 blankChar, false⟩ : Grid).area) :=
  resize_preserve_truncate ⟨0, 0, 2, 3, 1, List.replicate 6 blankChar, false⟩ 2 4
    (by decide)

/-! ## Claim C6 -/

lemma grid_resize_cursor (s : EditorState) (gid cols rows : Nat) :
    (grid_resize s gid cols rows).cursor = s.cursor := by
  cases hf : find_grid s.grids gid <;> simp [grid_resize, hf]

lemma find_resize_dims (s : EditorState) (gid cols rows : Nat) :
    ∃ G, find_grid (grid_resize s gid cols rows).grids gid = some G ∧
      G.rows = rows % 65536 ∧ G.cols = cols % 65536 := by
  rw [find_after_resize]
  cases hf : find_grid s.grids gid with
  | none => exact ⟨mkBlankGrid gid cols rows, rfl, rfl, rfl⟩
  | some g => exact ⟨resizeGrid g cols rows, rfl, rfl, rfl⟩

/-- C6 counterexample: after cursor-goto (grid 1, row 10, col 0) and a
resize of grid 1 to 5 rows the cursor reads as `none`; but a later resize
back to 20 rows makes reads return `some` again although no new cursor-goto
happened, refuting "reads keep returning None until a new cursor-goto". -/
theorem cursor_none_until_goto_cex :
    readCursor (applyOps initState [Op.resize 1 5 20, Op.goto 1 10 0, Op.resize 1 5 5])
        = none ∧
    readCursor (applyOps initState
        [Op.resize 1 5 20, Op.goto 1 10 0, Op.resize 1 5 5, Op.resize 1 5 20])
        = some (1, 10, 0) := by
  refine ⟨by decide, by decide⟩

/-- C6 (amended): a stored cursor reads as `none` whenever the referenced
grid is missing, hidden, or the stored coordinates are out of the grid's
current bounds — in particular after any resize that leaves the stored row
or column out of range — and reads return `some` again once a cursor-goto
or a later resize places the stored position inside the current bounds
(validity is re-checked against the current registry on every read). -/
theorem cursor_invalid_after_resize :
    (∀ (s : EditorState) (gid r c cols rows : Nat),
      rows % 65536 ≤ r ∨ cols % 65536 ≤ c →
      readCursor (grid_resize (grid_cursor_goto s gid r c) gid cols rows) = none) ∧
    (∀ (s : EditorState) (gid r c cols rows : Nat),
      r < rows % 65536 → c < cols % 65536 → cursorValid s gid r c = true →
      readCursor (grid_resize (grid_cursor_goto s gid r c) gid cols rows)
        = some (gid, r, c)) ∧
    (∀ (s : EditorState) (gid r c : Nat) (g : Grid),
      find_grid s.grids gid = some g → g.hidden = false → r < g.rows → c < g.cols →
      readCursor (grid_cursor_goto s gid r c) = some (gid, r, c)) ∧
    (∀ (s : EditorState) (gid r c : Nat),
      find_grid s.grids gid = none →
      readCursor (grid_cursor_goto s gid r c) = none) ∧
    (∀ (s : EditorState) (gid r c : Nat) (g : Grid),
      find_grid s.grids gid = some g → g.hidden = true →
      readCursor (grid_cursor_goto s gid r c) = none) := by
  refine ⟨?_, ?_, ?_, ?_, ?_⟩
  · intro s gid r c cols rows h
    obtain ⟨G, hG, hGr, hGc⟩ :=
      find_resize_dims (grid_cursor_goto s gid r c) gid cols rows
    have hval : cursorValid (grid_resize (grid_cursor_goto s gid r c) gid cols rows)
        gid r c = false := by
      unfold cursorValid
      rw [hG]
      show (if G.hidden = false ∧ r < G.rows ∧ c < G.cols then true else false) = false
      rw [if_neg (fun hcon => by
        rw [hGr, hGc] at hcon
        rcases h with h | h <;> omega)]
    unfold readCursor
    rw [grid_resize_cursor]
    show (if cursorValid s gid r c = true ∧
        cursorValid (grid_resize (grid_cursor_goto s gid r c) gid cols rows) gid r c
          = true
      then some (gid, r, c) else none) = none
    rw [if_neg (fun hcon => by
      rw [hval] at hcon
      exact absurd hcon.2 (by decide))]
  · intro s gid r c cols rows hr hc hbit
    have hfg : ∃ g, find_grid s.grids gid = some g ∧ g.hidden = false := by
      revert hbit
      unfold cursorValid
      cases hf : find_grid s.grids gid with
      | none =>
        intro hbit
        simp at hbit
      | some g =>
        intro hbit
        have hbit2 : (if g.hidden = false ∧ r < g.rows ∧ c < g.cols then true else false)
            = true := hbit
        split_ifs at hbit2 with hcond
        exact ⟨g, rfl, hcond.1⟩
    obtain ⟨g, hfgrid, hhid⟩ := hfg
    have hfind1 : find_grid (grid_cursor_goto s gid r c).grids gid = some g := hfgrid
    have hfound : find_grid
        (grid_resize (grid_cursor_goto s gid r c) gid cols rows).grids gid
        = some (resizeGrid g cols rows) := by
      rw [find_after_resize, hfind1]
    have hval : cursorValid (grid_resize (grid_cursor_goto s gid r c) gid cols rows)
        gid r c = true := by
      unfold cursorValid
      rw [hfound]
      show (if (resizeGrid g cols rows).hidden = false ∧
          r < (resizeGrid g cols rows).rows ∧ c < (resizeGrid g cols rows).cols
        then true else false) = true
      rw [if_pos ⟨hhid, hr, hc⟩]
    unfold readCursor
    rw [grid_resize_cursor]
    show (if cursorValid s gid r c = true ∧
        cursorValid (grid_resize (grid_cursor_goto s gid r c) gid cols rows) gid r c
          = true
      then some (gid, r, c) else none) = some (gid, r, c)
    rw [if_pos ⟨hbit, hval⟩]
  · intro s gid r c g hfg hhid hr hc
    have hbit : cursorValid s gid r c = true := by
      unfold cursorValid
      rw [hfg]
      show (if g.hidden = false ∧ r < g.rows ∧ c < g.cols then true else false) = true
      rw [if_pos ⟨hhid, hr, hc⟩]
    unfold readCursor
    show (if cursorValid s gid r c = true ∧
        cursorValid (grid_cursor_goto s gid r c) gid r c = true
      then some (gid, r, c) else none) = some (gid, r, c)
    rw [if_pos ⟨hbit, hbit⟩]
  · intro s gid r c hfg
    have hbit : cursorValid s gid r c = false := by
      unfold cursorValid
      rw [hfg]
    unfold readCursor
    show (if cursorValid s gid r c = true ∧
        cursorValid (grid_cursor_goto s gid r c) gid r c = true
      then some (gid, r, c) else none) = none
    rw [if_neg (fun hcon => by
      rw [hbit] at hcon
      exact absurd hcon.1 (by decide))]
  · intro s gid r c g hfg hhid
    have hbit : cursorValid s gid r c = false := by
      unfold cursorValid
      rw [hfg]
      show (if g.hidden = false ∧ r < g.rows ∧ c < g.cols then true else false) = false
      rw [if_neg (fun hcon => by
        rw [hhid] at hcon
        exact absurd hcon.1 (by decide))]
    unfold readCursor
    show (if cursorValid s gid r c = true ∧
        cursorValid (grid_cursor_goto s gid r c) gid r c = true
      then some (gid, r, c) else none) = none
    rw [if_neg (fun hcon => by
      rw [hbit] at hcon
      exact absurd hcon.1 (by decide))]

/-- Witness for C6's amended theorem at concrete states. -/
theorem cursor_invalid_after_resize_witness :
    readCursor (grid_resize (grid_cursor_goto (grid_resize initState 1 5 20) 1 10 0)
        1 5 5) = none ∧
    readCursor (grid_resize (grid_cursor_goto (grid_resize initState 1 5 20) 1 10 0)
        1 5 20) = some (1, 10, 0) ∧
    readCursor (grid_cursor_goto (grid_resize initState 1 5 20) 1 10 0)
        = some (1, 10, 0) ∧
    readCursor (grid_cursor_goto initState 9 0 0) = none ∧
    readCursor (grid_cursor_goto
        ⟨[⟨0, 0, 5, 5, 2, List.replicate 25 blankChar, true⟩], none, [], []⟩ 2 1 1)
        = none :=
  ⟨cursor_invalid_after_resize.1 (grid_resize initState 1 5 20) 1 10 0 5 5
      (by decide),
    cursor_invalid_after_resize.2.1 (grid_resize initState 1 5 20) 1 10 0 5 20
      (by decide) (by decide) (by decide),
    cursor_invalid_after_resize.2.2.1 (grid_resize initState 1 5 20) 1 10 0
      (mkBlankGrid 1 5 20) (by decide) (by decide) (by decide) (by decide),
    cursor_invalid_after_resize.2.2.2.1 initState 9 0 0 (by decide),
    cursor_invalid_after_resize.2.2.2.2
      ⟨[⟨0, 0, 5, 5, 2, List.replicate 25 blankChar, true⟩], none, [], []⟩ 2 1 1
      ⟨0, 0, 5, 5, 2, List.replicate 25 blankChar, true⟩ (by decide) (by decide)⟩

/-! ## Claim C7 -/

/-- C7: the render callback fires exactly once per flush — the render log
grows by exactly the number of flush operations processed, never zero and
never more than once per flush — and when no mutation occurred since the
previous flush the dirty set handed to the callback is empty. -/
theorem flush_render_once :
    (∀ (s : EditorState) (ops : List Op),
      (applyOps s ops).renderLog.length = s.renderLog.length + countFlush ops) ∧
    (∀ s : EditorState, s.dirty = [] →
      (applyOp s Op.flush).renderLog = s.renderLog ++ [[]]) := by
  constructor
  · intro s ops
    induction ops generalizing s with
    | nil => simp [applyOps, countFlush]
    | cons op rest ih =>
      show (applyOps (applyOp s op) rest).renderLog.length = _
      rw [ih]
      cases op with
      | resize gid cols rows =>
        have hrl : (applyOp s (Op.resize gid cols rows)).renderLog = s.renderLog := by
          show (grid_resize s gid cols rows).renderLog = s.renderLog
          cases hf : find_grid s.grids gid <;> simp [grid_resize, hf]
        rw [hrl]
        rfl
      | line gid row sc runs =>
        have hrl : (applyOp s (Op.line gid row sc runs)).renderLog = s.renderLog := by
          show ((grid_line s gid row sc runs).1).renderLog = s.renderLog
          cases hf : find_grid s.grids gid with
          | none => simp [grid_line, hf]
          | some g => by_cases hrow : row < g.rows <;> simp [grid_line, hf, hrow]
        rw [hrl]
        rfl
      | goto gid row col => rfl
      | flush =>
        show (flush s).renderLog.length + countFlush rest
          = s.renderLog.length + countFlush (Op.flush :: rest)
        simp [flush, countFlush]
        omega
  · intro s hd
    show (flush s).renderLog = s.renderLog ++ [[]]
    simp [flush, hd]

/-- Witness for C7: two consecutive flushes after one resize. -/
theorem flush_render_once_witness :
    (applyOps initState [Op.resize 1 2 2, Op.flush, Op.flush]).renderLog.length
        = initState.renderLog.length
          + countFlush [Op.resize 1 2 2, Op.flush, Op.flush] ∧
    (applyOp (flush initState) Op.flush).renderLog = (flush initState).renderLog ++ [[]] :=
  ⟨flush_render_once.1 initState [Op.resize 1 2 2, Op.flush, Op.flush],
    flush_render_once.2 (flush initState) (by decide)⟩

/-! ## Claim C8 -/

/-- C8 counterexample: grid ids are stored in a 16-bit field
(src/src/editor.hpp line 31), so the externally assigned id 65536 is stored
as 0: no grid with id 65536 exists after a resize naming it, looking the id
65536 up is the same as looking up 0, and a resize naming 65536 after one
naming 0 updates that same grid instead of registering a second one. -/
theorem grid_id_uint16_cex :
    (applyOps initState [Op.resize 65536 4 4]).grids.map Grid.id = [0] ∧
    find_grid (applyOps initState [Op.resize 65536 4 4]).grids 65536
      = find_grid (applyOps initState [Op.resize 65536 4 4]).grids 0 ∧
    (applyOps initState [Op.resize 0 2 2, Op.resize 65536 9 9]).grids.length = 1 := by
  refine ⟨by decide, by decide, by decide⟩

/-- C8 (amended): the registry accepts any integer as a grid id but stores
it reduced mod 2^16 (the header's uint16 id field): every resize naming an
id creates or updates a grid retrievable by that id whose stored id, rows
and cols are the event's values mod 2^16, and lookups of n and of n mod
2^16 agree — so ids at or above 2^16 alias their 16-bit residue and the
engine does impose the uint16 upper bound. -/
theorem grid_id_mod_registry :
    (∀ (s : EditorState) (gid cols rows : Nat),
      ∃ g', find_grid (grid_resize s gid cols rows).grids gid = some g' ∧
        g'.id = gid % 65536 ∧ g'.rows = rows % 65536 ∧ g'.cols = cols % 65536) ∧
    (∀ (gs : List Grid) (n : Nat), find_grid gs n = find_grid gs (n % 65536)) := by
  constructor
  · intro s gid cols rows
    rw [find_after_resize]
    cases hf : find_grid s.grids gid with
    | none => exact ⟨mkBlankGrid gid cols rows, rfl, rfl, rfl, rfl⟩
    | some g =>
      refine ⟨resizeGrid g cols rows, rfl, ?_, rfl, rfl⟩
      show g.id = gid % 65536
      exact find_grid_id s.grids gid g hf
  · intro gs n
    induction gs with
    | nil => rfl
    | cons h t ih =>
      have e : n % 65536 % 65536 = n % 65536 := by omega
      simp only [find_grid, e, ih]

end Nvui
